import Mathlib

/-!
Shallow embedding of the state engine of the dioxus-flow repository
(src/types.rs and src/hooks.rs) and proofs about the behaviour of its
graph store, camera, selection, connection state machine and history
manager.  Rust `f64` values are modelled as exact rationals `ℚ`;
`f64::clamp`, which panics when the lower bound exceeds the upper bound,
is modelled as an `Option`-returning function (`none` = panic).  String
ids stay `String`, `i32` z-indices become `ℤ`.
-/

namespace DioxusFlow

/-- Position in 2D space (src/types.rs, `Position`). -/
structure Position where
  x : ℚ
  y : ℚ
deriving DecidableEq

/-- Viewport state: pan offset and zoom (src/types.rs, `Viewport`). -/
structure Viewport where
  x : ℚ
  y : ℚ
  zoom : ℚ
deriving DecidableEq

/-- Rust `Viewport::default`: origin with zoom 1. -/
def Viewport.default : Viewport := ⟨0, 0, 1⟩

/-- Rust `Viewport::screen_to_flow`: convert screen coordinates to flow coordinates. -/
def Viewport.screen_to_flow (v : Viewport) (screen_x screen_y : ℚ) : Position :=
  ⟨(screen_x - v.x) / v.zoom, (screen_y - v.y) / v.zoom⟩

/-- Rust `Viewport::flow_to_screen`: convert flow coordinates to screen coordinates. -/
def Viewport.flow_to_screen (v : Viewport) (flow_x flow_y : ℚ) : Position :=
  ⟨flow_x * v.zoom + v.x, flow_y * v.zoom + v.y⟩

/-- Handle position on a node (src/types.rs, `HandlePosition`). -/
inductive HandlePosition where
  | Top
  | Right
  | Bottom
  | Left
deriving DecidableEq

/-- Handle type (src/types.rs, `HandleKind`). -/
inductive HandleKind where
  | Source
  | Target
deriving DecidableEq

/-- A connection handle on a node (src/types.rs, `NodeHandle`). -/
structure NodeHandle where
  id : String
  kind : HandleKind
  position : HandlePosition
  offset : Option ℚ
  connectable : Bool
  max_connections : Option ℕ
  label : Option String
deriving DecidableEq

/-- Rust `NodeHandle::source`: a new source (output) handle. -/
def NodeHandle.source (id : String) : NodeHandle :=
  ⟨id, HandleKind.Source, HandlePosition.Right, none, true, none, none⟩

/-- Rust `NodeHandle::target`: a new target (input) handle. -/
def NodeHandle.target (id : String) : NodeHandle :=
  ⟨id, HandleKind.Target, HandlePosition.Left, none, true, none, none⟩

/-- Rust `NodeHandle::with_position`. -/
def NodeHandle.with_position (h : NodeHandle) (position : HandlePosition) : NodeHandle :=
  { h with position := position }

/-- Node extent/bounds for constraining movement (src/types.rs, `NodeExtent`). -/
structure NodeExtent where
  min_x : ℚ
  min_y : ℚ
  max_x : ℚ
  max_y : ℚ
deriving DecidableEq

/-- The arithmetic of Rust `f64::clamp` for ordered bounds. -/
def clampVal (v lo hi : ℚ) : ℚ :=
  if v < lo then lo else if hi < v then hi else v

/-- Rust `f64::clamp`: asserts `lo <= hi` and panics otherwise; the panic is
modelled as `none`. -/
def rustClamp (v lo hi : ℚ) : Option ℚ :=
  if lo ≤ hi then some (clampVal v lo hi) else none

/-- Rust `NodeExtent::clamp`: clamp a position so the node's full width and height
stay inside the extent.  Panics (`none`) when the extent is smaller than the
node on some axis, because `f64::clamp` is then called with a lower bound
greater than its upper bound. -/
def NodeExtent.clamp (e : NodeExtent) (position : Position)
    (node_width node_height : ℚ) : Option Position :=
  match rustClamp position.x e.min_x (e.max_x - node_width),
        rustClamp position.y e.min_y (e.max_y - node_height) with
  | some x, some y => some ⟨x, y⟩
  | _, _ => none

/-- Edge type for different visual styles (src/types.rs, `EdgeType`). -/
inductive EdgeType where
  | Bezier
  | Straight
  | Step
  | SmoothStep
deriving DecidableEq

/-- An edge connecting two nodes (src/types.rs, `Edge`).  The source field
named `class` is rendered here as `css_class` because `class` is a reserved
word. -/
structure Edge where
  id : String
  source : String
  target : String
  source_handle : HandlePosition
  target_handle : HandlePosition
  source_handle_id : Option String
  target_handle_id : Option String
  edge_type : EdgeType
  animated : Bool
  selected : Bool
  selectable : Bool
  deletable : Bool
  label : Option String
  stroke : String
  stroke_width : ℚ
  css_class : String
deriving DecidableEq

/-- Rust `Edge::new`: a new edge using default handles (bottom to top). -/
def Edge.new (id source target : String) : Edge :=
  { id := id
    source := source
    target := target
    source_handle := HandlePosition.Bottom
    target_handle := HandlePosition.Top
    source_handle_id := none
    target_handle_id := none
    edge_type := EdgeType.Bezier
    animated := false
    selected := false
    selectable := true
    deletable := true
    label := none
    stroke := "#b1b1b7"
    stroke_width := 2
    css_class := "" }

/-- Rust `Edge::with_source_handle`. -/
def Edge.with_source_handle (e : Edge) (position : HandlePosition) : Edge :=
  { e with source_handle := position }

/-- Rust `Edge::with_target_handle`. -/
def Edge.with_target_handle (e : Edge) (position : HandlePosition) : Edge :=
  { e with target_handle := position }

/-- Rust `Edge::with_source_handle_id`. -/
def Edge.with_source_handle_id (e : Edge) (handle_id : String) : Edge :=
  { e with source_handle_id := some handle_id }

/-- Rust `Edge::with_target_handle_id`. -/
def Edge.with_target_handle_id (e : Edge) (handle_id : String) : Edge :=
  { e with target_handle_id := some handle_id }

/-- Rust `Edge::with_type`. -/
def Edge.with_type (e : Edge) (edge_type : EdgeType) : Edge :=
  { e with edge_type := edge_type }

/-- Rust `Edge::with_animated`. -/
def Edge.with_animated (e : Edge) (animated : Bool) : Edge :=
  { e with animated := animated }

/-- Rust `Edge::with_stroke`. -/
def Edge.with_stroke (e : Edge) (stroke : String) : Edge :=
  { e with stroke := stroke }

/-- Rust `Edge::with_stroke_width`. -/
def Edge.with_stroke_width (e : Edge) (width : ℚ) : Edge :=
  { e with stroke_width := width }

/-- A node in the flow (src/types.rs, `Node<T>`).  The source field named
`class` is rendered as `css_class`; the `style` hash map becomes an
association list. -/
structure Node (T : Type) where
  id : String
  position : Position
  width : Option ℚ
  height : Option ℚ
  data : T
  selected : Bool
  selectable : Bool
  draggable : Bool
  deletable : Bool
  connectable : Bool
  handles : List NodeHandle
  node_type : String
  z_index : ℤ
  css_class : String
  style : List (String × String)
  extent : Option NodeExtent
deriving DecidableEq

/-- Rust `Node::new`: a new node with default data and default handles
(top target, bottom source). -/
def Node.new {T : Type} [Inhabited T] (id : String) (x y : ℚ) : Node T :=
  { id := id
    position := ⟨x, y⟩
    width := none
    height := none
    data := default
    selected := false
    selectable := true
    draggable := true
    deletable := true
    connectable := true
    handles := [(NodeHandle.target "target").with_position HandlePosition.Top,
                (NodeHandle.source "source").with_position HandlePosition.Bottom]
    node_type := "default"
    z_index := 0
    css_class := ""
    style := []
    extent := none }

/-- Connection state while dragging a new edge (src/types.rs, `Connection`). -/
structure Connection where
  source : String
  source_handle : HandlePosition
  source_handle_id : Option String
  target_position : Position
deriving DecidableEq

/-- Snap grid configuration (src/types.rs, `SnapGrid`). -/
structure SnapGrid where
  enabled : Bool
  size : ℚ
deriving DecidableEq

/-- Rust `SnapGrid::default`: disabled, cell size 15. -/
def SnapGrid.default : SnapGrid := ⟨false, 15⟩

/-- Rust `f64::round`: round half away from zero. -/
def roundAway (q : ℚ) : ℤ :=
  if 0 ≤ q then Int.floor (q + 1/2) else -Int.floor (-q + 1/2)

/-- Rust `SnapGrid::snap`: snap a position to the grid when enabled. -/
def SnapGrid.snap (g : SnapGrid) (position : Position) : Position :=
  if g.enabled = false then position
  else ⟨(roundAway (position.x / g.size) : ℚ) * g.size,
        (roundAway (position.y / g.size) : ℚ) * g.size⟩

/-- Connection validation result (src/types.rs, `ConnectionValidation`). -/
structure ConnectionValidation where
  is_valid : Bool
  message : Option String
deriving DecidableEq

/-- Rust `ConnectionValidation::valid`. -/
def ConnectionValidation.valid : ConnectionValidation := ⟨true, none⟩

/-- Rust `ConnectionValidation::invalid`. -/
def ConnectionValidation.invalid (message : String) : ConnectionValidation :=
  ⟨false, some message⟩

/-- Pending connection info for validation (src/types.rs, `PendingConnection`). -/
structure PendingConnection where
  source : String
  source_handle : HandlePosition
  target : String
  target_handle : HandlePosition
deriving DecidableEq

/-- Selection rectangle for multi-select (src/types.rs, `SelectionRect`). -/
structure SelectionRect where
  x : ℚ
  y : ℚ
  width : ℚ
  height : ℚ
deriving DecidableEq

/-- Rust `SelectionRect::intersects`: separating-axis rectangle intersection. -/
def SelectionRect.intersects (self other : SelectionRect) : Bool :=
  !(decide (self.x + self.width < other.x) ||
    decide (other.x + other.width < self.x) ||
    decide (self.y + self.height < other.y) ||
    decide (other.y + other.height < self.y))

/-- Rust `SelectionRect::intersects_node`: intersection with a node's bounding box. -/
def SelectionRect.intersects_node {T : Type} (r : SelectionRect) (n : Node T) : Bool :=
  r.intersects ⟨n.position.x, n.position.y, n.width.getD 150, n.height.getD 40⟩

/-- Default edge options applied to new edges (src/types.rs,
`DefaultEdgeOptions`). -/
structure DefaultEdgeOptions where
  edge_type : EdgeType
  stroke : String
  stroke_width : ℚ
  animated : Bool
deriving DecidableEq

/-- Rust `DefaultEdgeOptions::default`. -/
def DefaultEdgeOptions.default : DefaultEdgeOptions :=
  ⟨EdgeType.Bezier, "#b1b1b7", 2, false⟩

/-- Copy/paste clipboard data (src/types.rs, `ClipboardData<T>`). -/
structure ClipboardData (T : Type) where
  nodes : List (Node T)
  edges : List Edge
deriving DecidableEq

/-- A snapshot of the flow state for undo/redo (src/hooks.rs, `FlowSnapshot`). -/
structure FlowSnapshot (T : Type) where
  nodes : List (Node T)
  edges : List Edge
deriving DecidableEq

/-- Flow state containing all nodes, edges, and viewport information
(src/hooks.rs, `FlowState<T>`).  The `node_dimensions` hash map becomes an
association list. -/
structure FlowState (T : Type) where
  nodes : List (Node T)
  edges : List Edge
  viewport : Viewport
  selected_nodes : List String
  selected_edges : List String
  connection : Option Connection
  node_dimensions : List (String × ℚ × ℚ)
  snap_grid : SnapGrid
  default_edge_options : DefaultEdgeOptions
  clipboard : ClipboardData T
  undo_stack : List (FlowSnapshot T)
  redo_stack : List (FlowSnapshot T)
  max_z_index : ℤ
  connection_valid : Bool
deriving DecidableEq

/-- Maximum history size for undo/redo (src/hooks.rs, `MAX_HISTORY_SIZE`). -/
def MAX_HISTORY_SIZE : ℕ := 100

/-- Rust `FlowState::new`: empty flow state. -/
def FlowState.new {T : Type} : FlowState T :=
  { nodes := []
    edges := []
    viewport := Viewport.default
    selected_nodes := []
    selected_edges := []
    connection := none
    node_dimensions := []
    snap_grid := SnapGrid.default
    default_edge_options := DefaultEdgeOptions.default
    clipboard := ⟨[], []⟩
    undo_stack := []
    redo_stack := []
    max_z_index := 0
    connection_valid := true }

/-- Rust `FlowState::with_nodes_and_edges`. -/
def FlowState.with_nodes_and_edges {T : Type} (nodes : List (Node T))
    (edges : List Edge) : FlowState T :=
  { FlowState.new with
    nodes := nodes
    edges := edges
    max_z_index := ((nodes.map (fun n => n.z_index)).max?).getD 0 }

/-- Apply `f` to the first element satisfying `p`, leaving the rest unchanged.
Models a successful `iter_mut().find(...)` followed by an in-place mutation. -/
def setFirst {α : Type} (p : α → Bool) (f : α → α) : List α → List α
  | [] => []
  | a :: as => if p a then f a :: as else a :: setFirst p f as

/-- Like `setFirst` but the mutation may panic (`none`); when no element
matches, the list is returned unchanged. -/
def updateFirst {α : Type} (p : α → Bool) (f : α → Option α) : List α → Option (List α)
  | [] => some []
  | a :: as =>
    if p a then (f a).map (fun b => b :: as)
    else (updateFirst p f as).map (fun bs => a :: bs)

namespace FlowState

variable {T : Type}

/-- Rust `FlowState::save_to_history`: push a snapshot onto the bounded undo stack
(oldest entry evicted past `MAX_HISTORY_SIZE`) and clear the redo stack. -/
def save_to_history (s : FlowState T) : FlowState T :=
  let u := s.undo_stack ++ [⟨s.nodes, s.edges⟩]
  { s with
    undo_stack := if MAX_HISTORY_SIZE < u.length then u.drop 1 else u
    redo_stack := [] }

/-- Rust `FlowState::clear_selection`: clear the `selected` flag on every node and
edge and empty both selection id lists. -/
def clear_selection (s : FlowState T) : FlowState T :=
  { s with
    nodes := s.nodes.map (fun n => { n with selected := false })
    edges := s.edges.map (fun e => { e with selected := false })
    selected_nodes := []
    selected_edges := [] }

/-- Rust `FlowState::undo`: pop the last undo snapshot (failure on an empty stack),
push the current state onto the redo stack, restore, clear selection. -/
def undo (s : FlowState T) : Bool × FlowState T :=
  match s.undo_stack.getLast? with
  | some snapshot =>
    (true, clear_selection
      { s with
        undo_stack := s.undo_stack.dropLast
        redo_stack := s.redo_stack ++ [⟨s.nodes, s.edges⟩]
        nodes := snapshot.nodes
        edges := snapshot.edges })
  | none => (false, s)

/-- Rust `FlowState::redo`: pop the last redo snapshot (failure on an empty stack),
push the current state onto the undo stack, restore, clear selection. -/
def redo (s : FlowState T) : Bool × FlowState T :=
  match s.redo_stack.getLast? with
  | some snapshot =>
    (true, clear_selection
      { s with
        redo_stack := s.redo_stack.dropLast
        undo_stack := s.undo_stack ++ [⟨s.nodes, s.edges⟩]
        nodes := snapshot.nodes
        edges := snapshot.edges })
  | none => (false, s)

/-- Rust `FlowState::can_undo`. -/
def can_undo (s : FlowState T) : Bool := !s.undo_stack.isEmpty

/-- Rust `FlowState::can_redo`. -/
def can_redo (s : FlowState T) : Bool := !s.redo_stack.isEmpty

/-- Rust `FlowState::get_node`: first node with the given id. -/
def get_node (s : FlowState T) (id : String) : Option (Node T) :=
  s.nodes.find? (fun n => decide (n.id = id))

/-- Rust `FlowState::get_edge`: first edge with the given id. -/
def get_edge (s : FlowState T) (id : String) : Option Edge :=
  s.edges.find? (fun e => decide (e.id = id))

/-- Rust `FlowState::add_node`: assign `max_z_index + 1` when the node's z-index is
zero, otherwise raise the running maximum; append the node. -/
def add_node (s : FlowState T) (node : Node T) : FlowState T :=
  if node.z_index = 0 then
    { s with
      max_z_index := s.max_z_index + 1
      nodes := s.nodes ++ [{ node with z_index := s.max_z_index + 1 }] }
  else
    { s with
      max_z_index := max s.max_z_index node.z_index
      nodes := s.nodes ++ [node] }

/-- Rust `FlowState::remove_node`: delete the node, every incident edge, and the id
from the node selection list. -/
def remove_node (s : FlowState T) (id : String) : FlowState T :=
  { s with
    nodes := s.nodes.filter (fun n => decide (n.id ≠ id))
    edges := s.edges.filter (fun e => decide (e.source ≠ id) && decide (e.target ≠ id))
    selected_nodes := s.selected_nodes.filter (fun n => decide (n ≠ id)) }

/-- Rust `FlowState::add_edge`: silently no-op when an edge with the same
`(source, target, source_handle, target_handle)` already exists; otherwise
append the edge.  Note the check compares the legacy side fields only — the
`source_handle_id` and `target_handle_id` fields play no part in it. -/
def add_edge (s : FlowState T) (edge : Edge) : FlowState T :=
  let exists_already := s.edges.any (fun e =>
    decide (e.source = edge.source) && decide (e.target = edge.target) &&
    decide (e.source_handle = edge.source_handle) &&
    decide (e.target_handle = edge.target_handle))
  if exists_already then s else { s with edges := s.edges ++ [edge] }

/-- Rust `FlowState::remove_edge`: delete by id and drop from the edge selection. -/
def remove_edge (s : FlowState T) (id : String) : FlowState T :=
  { s with
    edges := s.edges.filter (fun e => decide (e.id ≠ id))
    selected_edges := s.selected_edges.filter (fun e => decide (e ≠ id)) }

/-- The new position a node takes in `update_node_position`: optional grid
snap, then the extent clamp, which can panic (`none`). -/
def applyPositionRules (sg : SnapGrid) (position : Position) (n : Node T) :
    Option (Node T) :=
  let new_pos := if sg.enabled then sg.snap position else position
  match n.extent with
  | some e =>
    (e.clamp new_pos (n.width.getD 150) (n.height.getD 40)).map
      (fun q => { n with position := q })
  | none => some { n with position := new_pos }

/-- Rust `FlowState::update_node_position`: snap-then-clamp pipeline applied to the
first node with the given id; `none` models the `f64::clamp` panic. -/
def update_node_position (s : FlowState T) (id : String) (position : Position) :
    Option (FlowState T) :=
  (updateFirst (fun n => decide (n.id = id)) (applyPositionRules s.snap_grid position)
    s.nodes).map (fun ns => { s with nodes := ns })

/-- The loop body of `move_selected_nodes` for one node: only draggable nodes
move; the delta is applied, then snap, then the extent clamp. -/
def applyMoveRules (sg : SnapGrid) (dx dy : ℚ) (n : Node T) : Option (Node T) :=
  if n.draggable then
    let new_pos : Position := ⟨n.position.x + dx, n.position.y + dy⟩
    let final_pos := if sg.enabled then sg.snap new_pos else new_pos
    match n.extent with
    | some e =>
      (e.clamp final_pos (n.width.getD 150) (n.height.getD 40)).map
        (fun q => { n with position := q })
    | none => some { n with position := final_pos }
  else some n

/-- One iteration of the `move_selected_nodes` loop over the state. -/
def moveStep (sg : SnapGrid) (dx dy : ℚ) (id : String) (st : FlowState T) :
    Option (FlowState T) :=
  (updateFirst (fun n => decide (n.id = id)) (applyMoveRules sg dx dy) st.nodes).map
    (fun ns => { st with nodes := ns })

/-- Rust `FlowState::move_selected_nodes`: apply `applyMoveRules` to every
currently selected node, in selection order; `none` models a panic in any
iteration. -/
def move_selected_nodes (s : FlowState T) (dx dy : ℚ) : Option (FlowState T) :=
  s.selected_nodes.foldl (fun acc id => acc.bind (moveStep s.snap_grid dx dy id))
    (some s)

/-- Rust `FlowState::bring_to_front`: bump the running maximum and give it to the
node. -/
def bring_to_front (s : FlowState T) (id : String) : FlowState T :=
  { s with
    max_z_index := s.max_z_index + 1
    nodes := setFirst (fun n => decide (n.id = id))
      (fun n => { n with z_index := s.max_z_index + 1 }) s.nodes }

/-- Rust `FlowState::send_to_back`: increment the z-index of every other node whose
z-index is positive, then zero the target's z-index. -/
def send_to_back (s : FlowState T) (id : String) : FlowState T :=
  let ns := s.nodes.map (fun n =>
    if decide (n.id ≠ id) && decide (0 < n.z_index)
    then { n with z_index := n.z_index + 1 } else n)
  { s with
    nodes := setFirst (fun n => decide (n.id = id)) (fun n => { n with z_index := 0 }) ns }

/-- Rust `FlowState::select_node`: no-op when the node exists and is not
selectable; otherwise clear the selection unless multi-select, add the id to
the selection list if absent, and mark the node selected. -/
def select_node (s : FlowState T) (id : String) (multi_select : Bool) : FlowState T :=
  if ((s.get_node id).map (fun n => !n.selectable)).getD false then s
  else
    let s1 := if multi_select then s else s.clear_selection
    let s2 := if id ∈ s1.selected_nodes then s1
              else { s1 with selected_nodes := s1.selected_nodes ++ [id] }
    { s2 with
      nodes := setFirst (fun n => decide (n.id = id))
        (fun n => { n with selected := true }) s2.nodes }

/-- Rust `FlowState::select_edge`: mirror of `select_node` for edges. -/
def select_edge (s : FlowState T) (id : String) (multi_select : Bool) : FlowState T :=
  if ((s.get_edge id).map (fun e => !e.selectable)).getD false then s
  else
    let s1 := if multi_select then s else s.clear_selection
    let s2 := if id ∈ s1.selected_edges then s1
              else { s1 with selected_edges := s1.selected_edges ++ [id] }
    { s2 with
      edges := setFirst (fun e => decide (e.id = id))
        (fun e => { e with selected := true }) s2.edges }

/-- One iteration of the `select_nodes` loop: add the id to the selection
when it names a selectable node not yet selected, then set the `selected`
flag whenever the node exists. -/
def selectNodesStep (st : FlowState T) (id : String) : FlowState T :=
  let st1 :=
    match st.get_node id with
    | some n =>
      if n.selectable && !(decide (id ∈ st.selected_nodes))
      then { st with selected_nodes := st.selected_nodes ++ [id] } else st
    | none => st
  { st1 with
    nodes := setFirst (fun n => decide (n.id = id))
      (fun n => { n with selected := true }) st1.nodes }

/-- Rust `FlowState::select_nodes`: add each listed id that names a selectable node
to the selection (the `selected` flag is set whenever the node exists). -/
def select_nodes (s : FlowState T) (ids : List String) (multi_select : Bool) :
    FlowState T :=
  ids.foldl selectNodesStep (if multi_select then s else s.clear_selection)

/-- One iteration of the `select_in_rect` loop: add the id to the selection
when absent and set the node's `selected` flag. -/
def selectInRectStep (st : FlowState T) (id : String) : FlowState T :=
  let st1 := if id ∈ st.selected_nodes then st
             else { st with selected_nodes := st.selected_nodes ++ [id] }
  { st1 with
    nodes := setFirst (fun n => decide (n.id = id))
      (fun n => { n with selected := true }) st1.nodes }

/-- Rust `FlowState::select_in_rect`: box selection of every selectable node whose
bounding box intersects the rectangle. -/
def select_in_rect (s : FlowState T) (rect : SelectionRect) (multi_select : Bool) :
    FlowState T :=
  let s0 := if multi_select then s else s.clear_selection
  let node_ids := (s0.nodes.filter
    (fun n => n.selectable && rect.intersects_node n)).map (fun n => n.id)
  node_ids.foldl selectInRectStep s0

/-- Rust `FlowState::select_all`: mark every selectable node and edge selected and
collect their ids. -/
def select_all (s : FlowState T) : FlowState T :=
  { s with
    nodes := s.nodes.map (fun n => if n.selectable then { n with selected := true } else n)
    edges := s.edges.map (fun e => if e.selectable then { e with selected := true } else e)
    selected_nodes := s.nodes.foldl
      (fun sel n => if n.selectable && !(decide (n.id ∈ sel)) then sel ++ [n.id] else sel)
      s.selected_nodes
    selected_edges := s.edges.foldl
      (fun sel e => if e.selectable && !(decide (e.id ∈ sel)) then sel ++ [e.id] else sel)
      s.selected_edges }

/-- Rust `FlowState::copy_selected`: clipboard gets clones of the selected nodes
and of the edges with both endpoints among the selected nodes. -/
def copy_selected (s : FlowState T) : FlowState T :=
  { s with
    clipboard :=
      ⟨s.nodes.filter (fun n => decide (n.id ∈ s.selected_nodes)),
       s.edges.filter (fun e =>
         decide (e.source ∈ s.selected_nodes) && decide (e.target ∈ s.selected_nodes))⟩ }

/-- Rust `FlowState::delete_selected`: remove every selected deletable node and
edge, cascade removal of edges touching deleted nodes, clear the selection,
and return the removed node ids and the sorted deduplicated edge ids. -/
def delete_selected (s : FlowState T) : (List String × List String) × FlowState T :=
  let deleted_nodes := s.selected_nodes.filter
    (fun id => ((s.get_node id).map (fun n => n.deletable)).getD false)
  let deleted_edges := s.selected_edges.filter
    (fun id => ((s.get_edge id).map (fun e => e.deletable)).getD false)
  let edges_to_delete := (s.edges.filter
    (fun e => decide (e.source ∈ deleted_nodes) || decide (e.target ∈ deleted_nodes))).map
    (fun e => e.id)
  let s1 := deleted_nodes.foldl remove_node s
  let s2 := deleted_edges.foldl remove_edge s1
  let s3 := edges_to_delete.foldl remove_edge s2
  let all_deleted_edges :=
    ((deleted_edges ++ edges_to_delete).mergeSort (fun a b => decide (a ≤ b))).destutter
      (fun a b => a ≠ b)
  ((deleted_nodes, all_deleted_edges), s3.clear_selection)

/-- Rust `FlowState::cut_selected`: copy, then delete the selection. -/
def cut_selected (s : FlowState T) : (List String × List String) × FlowState T :=
  s.copy_selected.delete_selected

/-- One iteration of the node loop of `paste`: mint a fresh id, clone the
clipboard node shifted by the offset and selected, insert it through
`add_node`, and record the id mapping. -/
def pasteNodeStep (mk_uuid : ℕ → String) (offset : Position)
    (acc : FlowState T × List (String × String) × List String) (p : ℕ × Node T) :
    FlowState T × List (String × String) × List String :=
  let node := p.2
  let new_id := node.id ++ "-copy-" ++ mk_uuid p.1
  let new_node := { node with
    id := new_id
    position := ⟨node.position.x + offset.x, node.position.y + offset.y⟩
    selected := true }
  let st := acc.1.add_node new_node
  ({ st with selected_nodes := st.selected_nodes ++ [new_id] },
   acc.2.1 ++ [(node.id, new_id)], acc.2.2 ++ [new_id])

/-- One iteration of the edge loop of `paste`: re-insert the edge only when
both endpoints were pasted, remapped through the old-to-new id mapping. -/
def pasteEdgeStep (mk_uuid : ℕ → String) (num_nodes : ℕ)
    (id_map : List (String × String)) (st : FlowState T) (p : ℕ × Edge) :
    FlowState T :=
  let edge := p.2
  match id_map.lookup edge.source, id_map.lookup edge.target with
  | some new_source, some new_target =>
    st.add_edge { edge with
      id := edge.id ++ "-copy-" ++ mk_uuid (num_nodes + p.1)
      source := new_source
      target := new_target }
  | _, _ => st

/-- The body of `FlowState::paste` past its empty-clipboard guard. -/
def pasteCore (s : FlowState T) (mk_uuid : ℕ → String) (offset : Position) :
    FlowState T × List String :=
  let clipboard_nodes := s.clipboard.nodes
  let clipboard_edges := s.clipboard.edges
  let r := clipboard_nodes.enum.foldl (pasteNodeStep mk_uuid offset)
    (s.clear_selection, [], [])
  let s2 := clipboard_edges.enum.foldl
    (pasteEdgeStep mk_uuid clipboard_nodes.length r.2.1) r.1
  (s2, r.2.2)

/-- Rust `FlowState::paste`: no-op on an empty clipboard; otherwise clone the
clipboard with fresh ids (the successive uuids drawn from
`uuid::Uuid::new_v4` are modelled by the oracle `mk_uuid`), shift node
positions by the offset, select the pasted nodes, and re-insert only the
edges whose both endpoints were pasted.  Returns the new node ids. -/
def paste (s : FlowState T) (mk_uuid : ℕ → String) (offset : Position) :
    FlowState T × List String :=
  if s.clipboard.nodes.isEmpty then (s, []) else s.pasteCore mk_uuid offset

/-- Rust `FlowState::has_clipboard_content`. -/
def has_clipboard_content (s : FlowState T) : Bool := !s.clipboard.nodes.isEmpty

/-- Rust `FlowState::set_viewport`: store the given viewport verbatim. -/
def set_viewport (s : FlowState T) (viewport : Viewport) : FlowState T :=
  { s with viewport := viewport }

/-- Rust `FlowState::pan`: translate the viewport. -/
def pan (s : FlowState T) (dx dy : ℚ) : FlowState T :=
  { s with viewport := ⟨s.viewport.x + dx, s.viewport.y + dy, s.viewport.zoom⟩ }

/-- Rust `FlowState::zoom`: additive zoom around a center point, clamped to
`[0.1, 4.0]`; the viewport translation keeps the diagram point under the
center fixed. -/
def zoom (s : FlowState T) (delta center_x center_y : ℚ) : FlowState T :=
  let old_zoom := s.viewport.zoom
  let new_zoom := clampVal (old_zoom + delta) (1/10) 4
  { s with viewport :=
      ⟨center_x - (center_x - s.viewport.x) * new_zoom / old_zoom,
       center_y - (center_y - s.viewport.y) * new_zoom / old_zoom,
       new_zoom⟩ }

/-- Rust `FlowState::set_zoom`: absolute zoom around a center point, clamped to
`[0.1, 4.0]`. -/
def set_zoom (s : FlowState T) (z center_x center_y : ℚ) : FlowState T :=
  let old_zoom := s.viewport.zoom
  let new_zoom := clampVal z (1/10) 4
  { s with viewport :=
      ⟨center_x - (center_x - s.viewport.x) * new_zoom / old_zoom,
       center_y - (center_y - s.viewport.y) * new_zoom / old_zoom,
       new_zoom⟩ }

/-- Rust `FlowState::zoom_in`. -/
def zoom_in (s : FlowState T) (center_x center_y : ℚ) : FlowState T :=
  s.zoom (1/5) center_x center_y

/-- Rust `FlowState::zoom_out`. -/
def zoom_out (s : FlowState T) (center_x center_y : ℚ) : FlowState T :=
  s.zoom (-(1/5)) center_x center_y

/-- The exact value of `f64::MAX`, the initial accumulator of the bounding-box
scan in `fit_view`. -/
def F64_MAX : ℚ := 2 ^ 1024 - 2 ^ 971

/-- Rust `FlowState::fit_view`: no-op on an empty graph; otherwise compute the
bounding box of all nodes (using cached dimensions when present), then a zoom
in `[0.1, 1.0]` and a centering translation. -/
def fit_view (s : FlowState T) (padding container_width container_height : ℚ) :
    FlowState T :=
  if s.nodes.isEmpty then s
  else
    let bb := s.nodes.foldl
      (fun (acc : ℚ × ℚ × ℚ × ℚ) n =>
        let wh := (s.node_dimensions.lookup n.id).getD (n.width.getD 150, n.height.getD 40)
        (min acc.1 n.position.x, min acc.2.1 n.position.y,
         max acc.2.2.1 (n.position.x + wh.1), max acc.2.2.2 (n.position.y + wh.2)))
      (F64_MAX, F64_MAX, -F64_MAX, -F64_MAX)
    let content_width := bb.2.2.1 - bb.1 + padding * 2
    let content_height := bb.2.2.2 - bb.2.1 + padding * 2
    let zoom_x := container_width / content_width
    let zoom_y := container_height / content_height
    let z := max (min (min zoom_x zoom_y) 1) (1/10)
    { s with viewport :=
        ⟨(container_width - content_width * z) / 2 - (bb.1 - padding) * z,
         (container_height - content_height * z) / 2 - (bb.2.1 - padding) * z,
         z⟩ }

/-- Rust `FlowState::set_snap_grid`. -/
def set_snap_grid (s : FlowState T) (snap_grid : SnapGrid) : FlowState T :=
  { s with snap_grid := snap_grid }

/-- Rust `FlowState::set_snap_enabled`. -/
def set_snap_enabled (s : FlowState T) (enabled : Bool) : FlowState T :=
  { s with snap_grid := { s.snap_grid with enabled := enabled } }

/-- Rust `FlowState::validate_connection`: reject self-loops, then reject a
duplicate of an existing edge on the side-based key. -/
def validate_connection (s : FlowState T) (pending : PendingConnection) :
    ConnectionValidation :=
  if pending.source = pending.target then
    ConnectionValidation.invalid "Cannot connect a node to itself"
  else if s.edges.any (fun e =>
      decide (e.source = pending.source) && decide (e.target = pending.target) &&
      decide (e.source_handle = pending.source_handle) &&
      decide (e.target_handle = pending.target_handle)) then
    ConnectionValidation.invalid "Connection already exists"
  else ConnectionValidation.valid

/-- Rust `FlowState::start_connection`. -/
def start_connection (s : FlowState T) (node_id : String)
    (handle_position : HandlePosition) (position : Position) : FlowState T :=
  { s with connection := some ⟨node_id, handle_position, none, position⟩ }

/-- Rust `FlowState::start_connection_from_handle`. -/
def start_connection_from_handle (s : FlowState T) (node_id handle_id : String)
    (handle_position : HandlePosition) (position : Position) : FlowState T :=
  { s with connection := some ⟨node_id, handle_position, some handle_id, position⟩ }

/-- Rust `FlowState::update_connection`: while a draft exists, update only its
tracked cursor position. -/
def update_connection (s : FlowState T) (position : Position) : FlowState T :=
  match s.connection with
  | some conn => { s with connection := some { conn with target_position := position } }
  | none => s

/-- Rust `FlowState::cancel_connection`. -/
def cancel_connection (s : FlowState T) : FlowState T :=
  { s with connection := none }

/-- Rust `FlowState::complete_connection_to_handle`: take the draft (the state
machine always returns to idle), reject self-loops and invalid connections
with no edge created, otherwise build the edge from the default edge options
and insert it through `add_edge`. -/
def complete_connection_to_handle (s : FlowState T) (target : String)
    (target_handle : HandlePosition) (target_handle_id : Option String) :
    Option Edge × FlowState T :=
  match s.connection with
  | some conn =>
    let s0 := { s with connection := none }
    if conn.source = target then (none, s0)
    else
      let pending : PendingConnection :=
        ⟨conn.source, conn.source_handle, target, target_handle⟩
      if !(s0.validate_connection pending).is_valid then (none, s0)
      else
        let edge0 :=
          ((((((Edge.new ("e" ++ conn.source ++ "-" ++ target) conn.source
            target).with_source_handle conn.source_handle).with_target_handle
            target_handle).with_type s0.default_edge_options.edge_type).with_stroke
            s0.default_edge_options.stroke).with_stroke_width
            s0.default_edge_options.stroke_width).with_animated
            s0.default_edge_options.animated
        let edge1 :=
          match conn.source_handle_id with
          | some h => edge0.with_source_handle_id h
          | none => edge0
        let edge :=
          match target_handle_id with
          | some h => edge1.with_target_handle_id h
          | none => edge1
        (some edge, s0.add_edge edge)
  | none => (none, s)

/-- Rust `FlowState::complete_connection`: complete without a target handle id. -/
def complete_connection (s : FlowState T) (target : String)
    (target_handle : HandlePosition) : Option Edge × FlowState T :=
  s.complete_connection_to_handle target target_handle none

end FlowState

/-- The states reachable from `FlowState::new` through the public mutation
API, with `set_viewport` excluded.  `paste` is reachable for every uuid
oracle, and the position updates only step when they do not panic. -/
inductive Reachable {T : Type} : FlowState T → Prop
  | init : Reachable FlowState.new
  | save_to_history {s} : Reachable s → Reachable s.save_to_history
  | undo {s} : Reachable s → Reachable s.undo.2
  | redo {s} : Reachable s → Reachable s.redo.2
  | add_node {s} (node : Node T) : Reachable s → Reachable (s.add_node node)
  | remove_node {s} (id : String) : Reachable s → Reachable (s.remove_node id)
  | add_edge {s} (edge : Edge) : Reachable s → Reachable (s.add_edge edge)
  | remove_edge {s} (id : String) : Reachable s → Reachable (s.remove_edge id)
  | delete_selected {s} : Reachable s → Reachable s.delete_selected.2
  | update_node_position {s s1} (id : String) (p : Position) :
      Reachable s → s.update_node_position id p = some s1 → Reachable s1
  | move_selected_nodes {s s1} (dx dy : ℚ) :
      Reachable s → s.move_selected_nodes dx dy = some s1 → Reachable s1
  | bring_to_front {s} (id : String) : Reachable s → Reachable (s.bring_to_front id)
  | send_to_back {s} (id : String) : Reachable s → Reachable (s.send_to_back id)
  | select_node {s} (id : String) (multi : Bool) :
      Reachable s → Reachable (s.select_node id multi)
  | select_edge {s} (id : String) (multi : Bool) :
      Reachable s → Reachable (s.select_edge id multi)
  | select_nodes {s} (ids : List String) (multi : Bool) :
      Reachable s → Reachable (s.select_nodes ids multi)
  | select_in_rect {s} (rect : SelectionRect) (multi : Bool) :
      Reachable s → Reachable (s.select_in_rect rect multi)
  | select_all {s} : Reachable s → Reachable s.select_all
  | clear_selection {s} : Reachable s → Reachable s.clear_selection
  | copy_selected {s} : Reachable s → Reachable s.copy_selected
  | cut_selected {s} : Reachable s → Reachable s.cut_selected.2
  | paste {s} (mk_uuid : ℕ → String) (offset : Position) :
      Reachable s → Reachable (s.paste mk_uuid offset).1
  | pan {s} (dx dy : ℚ) : Reachable s → Reachable (s.pan dx dy)
  | zoom {s} (delta cx cy : ℚ) : Reachable s → Reachable (s.zoom delta cx cy)
  | set_zoom {s} (z cx cy : ℚ) : Reachable s → Reachable (s.set_zoom z cx cy)
  | zoom_in {s} (cx cy : ℚ) : Reachable s → Reachable (s.zoom_in cx cy)
  | zoom_out {s} (cx cy : ℚ) : Reachable s → Reachable (s.zoom_out cx cy)
  | fit_view {s} (padding cw ch : ℚ) : Reachable s → Reachable (s.fit_view padding cw ch)
  | set_snap_grid {s} (g : SnapGrid) : Reachable s → Reachable (s.set_snap_grid g)
  | set_snap_enabled {s} (b : Bool) : Reachable s → Reachable (s.set_snap_enabled b)
  | start_connection {s} (node_id : String) (hp : HandlePosition) (p : Position) :
      Reachable s → Reachable (s.start_connection node_id hp p)
  | start_connection_from_handle {s} (node_id handle_id : String)
      (hp : HandlePosition) (p : Position) :
      Reachable s → Reachable (s.start_connection_from_handle node_id handle_id hp p)
  | update_connection {s} (p : Position) : Reachable s → Reachable (s.update_connection p)
  | cancel_connection {s} : Reachable s → Reachable s.cancel_connection
  | complete_connection_to_handle {s} (target : String) (th : HandlePosition)
      (thid : Option String) :
      Reachable s → Reachable (s.complete_connection_to_handle target th thid).2
  | complete_connection {s} (target : String) (th : HandlePosition) :
      Reachable s → Reachable (s.complete_connection target th).2

/-- The dedup key the specification describes for `add_edge`: source, target,
and on each end the side unless a specific handle id is present, the handle id
taking precedence over the side. -/
def specEndKey (side : HandlePosition) (handle_id : Option String) :
    HandlePosition ⊕ String :=
  match handle_id with
  | some h => Sum.inr h
  | none => Sum.inl side

/-- The full spec-side dedup key of an edge, for comparison with the key the
code actually uses. -/
def specDedupKey (e : Edge) :
    String × String × (HandlePosition ⊕ String) × (HandlePosition ⊕ String) :=
  (e.source, e.target, specEndKey e.source_handle e.source_handle_id,
   specEndKey e.target_handle e.target_handle_id)

/-- A node's movement extent, when present, is at least as large as the node:
the condition under which the `f64::clamp` calls inside `NodeExtent::clamp`
receive ordered bounds and therefore do not panic. -/
def extentOk {T : Type} (n : Node T) : Prop :=
  ∀ e : NodeExtent, n.extent = some e →
    n.width.getD 150 ≤ e.max_x - e.min_x ∧ n.height.getD 40 ≤ e.max_y - e.min_y

/-- The fields of a node that the position-update pipeline reads but never
writes: id, draggable flag, extent, width, height. -/
def nodeSig {T : Type} (n : Node T) :
    String × Bool × Option NodeExtent × Option ℚ × Option ℚ :=
  (n.id, n.draggable, n.extent, n.width, n.height)

/-- An edge between "a" and "b" on the default sides carrying handle ids
"h1"/"h2", for the C1 counterexample. -/
def c1Edge1 : Edge :=
  ((Edge.new "e1" "a" "b").with_source_handle_id "h1").with_target_handle_id "h2"

/-- An edge between the same nodes on the same sides but with different handle
ids "h3"/"h4". -/
def c1Edge2 : Edge :=
  ((Edge.new "e2" "a" "b").with_source_handle_id "h3").with_target_handle_id "h4"

/-- A state already containing `c1Edge1`. -/
def c1State : FlowState Unit :=
  { (FlowState.new : FlowState Unit) with edges := [c1Edge1] }

/-- A plain unselected node, for the C2 states. -/
def c2NodeA : Node Unit := Node.new "A" 0 0

/-- A node flagged selected, for the C2 counterexample. -/
def c2SelNode : Node Unit := { (Node.new "B" 1 1 : Node Unit) with selected := true }

/-- A state with an empty undo stack but a nonempty redo stack (reachable by
`save_to_history`, a mutation, then `undo`). -/
def c2StateA : FlowState Unit :=
  { (FlowState.new : FlowState Unit) with redo_stack := [⟨[c2NodeA], []⟩] }

/-- A state with a selected node and one undo snapshot. -/
def c2StateB : FlowState Unit :=
  { (FlowState.new : FlowState Unit) with nodes := [c2SelNode], undo_stack := [⟨[], []⟩] }

/-- A state with one node and one undo snapshot, witnessing the amended C2. -/
def c2WitState : FlowState Unit :=
  { (FlowState.new : FlowState Unit) with nodes := [c2NodeA], undo_stack := [⟨[], []⟩] }

/-- The per-node effect of `send_to_back id`: the target node's z-index
becomes zero; every other node's z-index is incremented only when positive. -/
def sendBackFun {T : Type} (id : String) (n : Node T) : Node T :=
  if n.id = id then { n with z_index := 0 }
  else if 0 < n.z_index then { n with z_index := n.z_index + 1 } else n

/-- A node with z-index zero (the default of `Node::new`, also produced by a
previous `send_to_back`). -/
def c3NodeA : Node Unit := Node.new "A" 0 0

/-- A node with positive z-index 5. -/
def c3NodeB : Node Unit := { (Node.new "B" 1 1 : Node Unit) with z_index := 5 }

/-- A two-node state for the C3 counterexample. -/
def c3State : FlowState Unit :=
  { (FlowState.new : FlowState Unit) with nodes := [c3NodeA, c3NodeB] }

/-- A two-node state with unique ids and positive z-indices, witnessing the
amended C3. -/
def c3WitState : FlowState Unit :=
  { (FlowState.new : FlowState Unit) with
    nodes := [{ (Node.new "A" 0 0 : Node Unit) with z_index := 1 },
              { (Node.new "B" 1 1 : Node Unit) with z_index := 2 }] }

/-- A node whose extent (200 by 50) can contain the default 150 by 40 node. -/
def c9GoodNode : Node Unit :=
  { (Node.new "g" 0 0 : Node Unit) with extent := some ⟨0, 0, 200, 50⟩ }

/-- A node whose extent (10 by 10) is smaller than the default 150 by 40
node, so its position clamp panics. -/
def c9BadNode : Node Unit :=
  { (Node.new "b" 0 0 : Node Unit) with extent := some ⟨0, 0, 10, 10⟩ }

/-- A state holding both nodes with the bad one selected. -/
def c9State : FlowState Unit :=
  { (FlowState.new : FlowState Unit) with
    nodes := [c9GoodNode, c9BadNode]
    selected_nodes := ["b"] }

/-- A fold whose step preserves a projection preserves it overall. -/
theorem foldl_proj {α β γ : Type _} (f : α → β → α) (proj : α → γ)
    (h : ∀ a b, proj (f a b) = proj a) :
    ∀ (l : List β) (a : α), proj (l.foldl f a) = proj a := by
  intro l
  induction l with
  | nil => intro a; rfl
  | cons b bs ih => intro a; rw [List.foldl_cons, ih, h]

/-- Folding a `bind`-style step from `none` stays `none`. -/
theorem foldl_bind_none {α β : Type _} (g : β → α → Option α) :
    ∀ l : List β, l.foldl (fun acc b => acc.bind (g b)) none = none := by
  intro l
  induction l with
  | nil => rfl
  | cons b bs ih => simpa using ih

/-- A `bind`-style fold whose step preserves a projection on success
preserves it overall. -/
theorem foldl_bind_proj {α β γ : Type _} (g : β → α → Option α) (proj : α → γ)
    (h : ∀ b a a1, g b a = some a1 → proj a1 = proj a) :
    ∀ (l : List β) (a a1 : α),
      l.foldl (fun acc b => acc.bind (g b)) (some a) = some a1 → proj a1 = proj a := by
  intro l
  induction l with
  | nil => intro a a1 hfold; cases hfold; rfl
  | cons b bs ih =>
    intro a a1 hfold
    rw [List.foldl_cons] at hfold
    rcases hg : g b a with _ | a2
    · rw [show (some a).bind (g b) = none by simp [hg], foldl_bind_none] at hfold
      cases hfold
    · rw [show (some a).bind (g b) = some a2 by simp [hg]] at hfold
      rw [ih a2 a1 hfold, h b a a2 hg]

namespace FlowState

variable {T : Type}

theorem save_to_history_viewport (s : FlowState T) :
    s.save_to_history.viewport = s.viewport := rfl

theorem clear_selection_viewport (s : FlowState T) :
    s.clear_selection.viewport = s.viewport := rfl

theorem undo_viewport (s : FlowState T) : s.undo.2.viewport = s.viewport := by
  unfold undo
  rcases s.undo_stack.getLast? with _ | snap <;> rfl

theorem redo_viewport (s : FlowState T) : s.redo.2.viewport = s.viewport := by
  unfold redo
  rcases s.redo_stack.getLast? with _ | snap <;> rfl

theorem add_node_viewport (s : FlowState T) (node : Node T) :
    (s.add_node node).viewport = s.viewport := by
  unfold add_node; split <;> rfl

theorem remove_node_viewport (s : FlowState T) (id : String) :
    (s.remove_node id).viewport = s.viewport := rfl

theorem add_edge_viewport (s : FlowState T) (edge : Edge) :
    (s.add_edge edge).viewport = s.viewport := by
  simp only [add_edge]; split <;> rfl

theorem remove_edge_viewport (s : FlowState T) (id : String) :
    (s.remove_edge id).viewport = s.viewport := rfl

theorem update_node_position_viewport (s : FlowState T) (id : String)
    (p : Position) {s1 : FlowState T} (h : s.update_node_position id p = some s1) :
    s1.viewport = s.viewport := by
  unfold update_node_position at h
  rcases Option.map_eq_some'.mp h with ⟨ns, _, h2⟩
  rw [← h2]

theorem moveStep_viewport (sg : SnapGrid) (dx dy : ℚ) (id : String)
    {st st1 : FlowState T} (h : moveStep sg dx dy id st = some st1) :
    st1.viewport = st.viewport := by
  unfold moveStep at h
  rcases Option.map_eq_some'.mp h with ⟨ns, _, h2⟩
  rw [← h2]

theorem move_selected_nodes_viewport (s : FlowState T) (dx dy : ℚ)
    {s1 : FlowState T} (h : s.move_selected_nodes dx dy = some s1) :
    s1.viewport = s.viewport := by
  unfold move_selected_nodes at h
  exact foldl_bind_proj (moveStep s.snap_grid dx dy) (fun st => st.viewport)
    (fun b a a1 hba => moveStep_viewport s.snap_grid dx dy b hba)
    s.selected_nodes s s1 h

theorem bring_to_front_viewport (s : FlowState T) (id : String) :
    (s.bring_to_front id).viewport = s.viewport := rfl

theorem send_to_back_viewport (s : FlowState T) (id : String) :
    (s.send_to_back id).viewport = s.viewport := rfl

theorem selectNodesStep_viewport (st : FlowState T) (id : String) :
    (selectNodesStep st id).viewport = st.viewport := by
  simp only [selectNodesStep]
  rcases st.get_node id with _ | n
  · rfl
  · dsimp only
    split <;> rfl

theorem selectInRectStep_viewport (st : FlowState T) (id : String) :
    (selectInRectStep st id).viewport = st.viewport := by
  simp only [selectInRectStep]
  split <;> rfl

theorem select_node_viewport (s : FlowState T) (id : String) (multi : Bool) :
    (s.select_node id multi).viewport = s.viewport := by
  simp only [select_node]
  split
  · rfl
  · split <;> split <;> rfl

theorem select_edge_viewport (s : FlowState T) (id : String) (multi : Bool) :
    (s.select_edge id multi).viewport = s.viewport := by
  simp only [select_edge]
  split
  · rfl
  · split <;> split <;> rfl

theorem select_nodes_viewport (s : FlowState T) (ids : List String) (multi : Bool) :
    (s.select_nodes ids multi).viewport = s.viewport := by
  unfold select_nodes
  refine (foldl_proj selectNodesStep (fun st : FlowState T => st.viewport)
    selectNodesStep_viewport ids _).trans ?_
  split <;> rfl

theorem select_in_rect_viewport (s : FlowState T) (rect : SelectionRect)
    (multi : Bool) : (s.select_in_rect rect multi).viewport = s.viewport := by
  simp only [select_in_rect]
  refine (foldl_proj selectInRectStep (fun st : FlowState T => st.viewport)
    selectInRectStep_viewport _ _).trans ?_
  split <;> rfl

theorem select_all_viewport (s : FlowState T) : s.select_all.viewport = s.viewport := rfl

theorem copy_selected_viewport (s : FlowState T) :
    s.copy_selected.viewport = s.viewport := rfl

theorem delete_selected_viewport (s : FlowState T) :
    s.delete_selected.2.viewport = s.viewport := by
  simp only [delete_selected]
  refine (clear_selection_viewport _).trans ?_
  refine (foldl_proj remove_edge (fun st : FlowState T => st.viewport)
    remove_edge_viewport _ _).trans ?_
  refine (foldl_proj remove_edge (fun st : FlowState T => st.viewport)
    remove_edge_viewport _ _).trans ?_
  exact foldl_proj remove_node (fun st : FlowState T => st.viewport)
    remove_node_viewport _ _

theorem cut_selected_viewport (s : FlowState T) :
    s.cut_selected.2.viewport = s.viewport := by
  unfold cut_selected
  rw [delete_selected_viewport, copy_selected_viewport]

theorem pasteNodeStep_viewport (mk_uuid : ℕ → String) (offset : Position)
    (acc : FlowState T × List (String × String) × List String) (p : ℕ × Node T) :
    (pasteNodeStep mk_uuid offset acc p).1.viewport = acc.1.viewport := by
  simp only [pasteNodeStep]
  exact add_node_viewport _ _

theorem pasteEdgeStep_viewport (mk_uuid : ℕ → String) (num_nodes : ℕ)
    (id_map : List (String × String)) (st : FlowState T) (p : ℕ × Edge) :
    (pasteEdgeStep mk_uuid num_nodes id_map st p).viewport = st.viewport := by
  simp only [pasteEdgeStep]
  rcases id_map.lookup p.2.source with _ | a <;>
    rcases id_map.lookup p.2.target with _ | b
  · rfl
  · rfl
  · rfl
  · exact add_edge_viewport _ _

theorem paste_viewport (s : FlowState T) (mk_uuid : ℕ → String) (offset : Position) :
    (s.paste mk_uuid offset).1.viewport = s.viewport := by
  unfold paste
  split
  · rfl
  · simp only [pasteCore]
    refine (foldl_proj (pasteEdgeStep mk_uuid s.clipboard.nodes.length _)
      (fun st : FlowState T => st.viewport)
      (pasteEdgeStep_viewport mk_uuid s.clipboard.nodes.length _) _ _).trans ?_
    exact (foldl_proj (pasteNodeStep mk_uuid offset)
      (fun acc : FlowState T × List (String × String) × List String => acc.1.viewport)
      (pasteNodeStep_viewport mk_uuid offset) _ _).trans (clear_selection_viewport s)

theorem set_snap_grid_viewport (s : FlowState T) (g : SnapGrid) :
    (s.set_snap_grid g).viewport = s.viewport := rfl

theorem set_snap_enabled_viewport (s : FlowState T) (b : Bool) :
    (s.set_snap_enabled b).viewport = s.viewport := rfl

theorem start_connection_viewport (s : FlowState T) (node_id : String)
    (hp : HandlePosition) (p : Position) :
    (s.start_connection node_id hp p).viewport = s.viewport := rfl

theorem start_connection_from_handle_viewport (s : FlowState T)
    (node_id handle_id : String) (hp : HandlePosition) (p : Position) :
    (s.start_connection_from_handle node_id handle_id hp p).viewport = s.viewport := rfl

theorem update_connection_viewport (s : FlowState T) (p : Position) :
    (s.update_connection p).viewport = s.viewport := by
  unfold update_connection
  rcases s.connection with _ | c <;> rfl

theorem cancel_connection_viewport (s : FlowState T) :
    s.cancel_connection.viewport = s.viewport := rfl

theorem complete_connection_to_handle_viewport (s : FlowState T) (target : String)
    (th : HandlePosition) (thid : Option String) :
    (s.complete_connection_to_handle target th thid).2.viewport = s.viewport := by
  unfold complete_connection_to_handle
  rcases s.connection with _ | c
  · rfl
  · dsimp only
    split
    · rfl
    · split
      · rfl
      · rw [add_edge_viewport]

theorem complete_connection_viewport (s : FlowState T) (target : String)
    (th : HandlePosition) :
    (s.complete_connection target th).2.viewport = s.viewport :=
  complete_connection_to_handle_viewport s target th none

theorem pan_viewport_zoom (s : FlowState T) (dx dy : ℚ) :
    (s.pan dx dy).viewport.zoom = s.viewport.zoom := rfl

end FlowState

/-- Rust `clampVal` lands inside ordered bounds. -/
theorem clampVal_mem {v lo hi : ℚ} (h : lo ≤ hi) :
    lo ≤ clampVal v lo hi ∧ clampVal v lo hi ≤ hi := by
  unfold clampVal
  split <;> [skip; split] <;> constructor <;> linarith

namespace FlowState

variable {T : Type}

theorem zoom_zoom_bounds (s : FlowState T) (delta cx cy : ℚ) :
    1/10 ≤ (s.zoom delta cx cy).viewport.zoom ∧ (s.zoom delta cx cy).viewport.zoom ≤ 4 :=
  @clampVal_mem (s.viewport.zoom + delta) (1/10) 4 (by norm_num)

theorem set_zoom_zoom_bounds (s : FlowState T) (z cx cy : ℚ) :
    1/10 ≤ (s.set_zoom z cx cy).viewport.zoom ∧ (s.set_zoom z cx cy).viewport.zoom ≤ 4 :=
  @clampVal_mem z (1/10) 4 (by norm_num)

theorem fit_view_zoom_cases (s : FlowState T) (padding cw ch : ℚ) :
    (s.fit_view padding cw ch).viewport.zoom = s.viewport.zoom ∨
    (1/10 ≤ (s.fit_view padding cw ch).viewport.zoom ∧
     (s.fit_view padding cw ch).viewport.zoom ≤ 4) := by
  simp only [fit_view]
  split
  · left; rfl
  · right
    constructor
    · exact le_max_right _ _
    · exact max_le (le_trans (min_le_right _ _) (by norm_num)) (by norm_num)

end FlowState

open FlowState in
/-- C4 (amended): in every state reachable from the initial state by the
public mutation API with `set_viewport` excluded — `pan`, `zoom`, `set_zoom`,
`zoom_in`, `zoom_out`, `fit_view` and every non-camera mutation — the camera
zoom lies within the configured `[0.1, 4.0]` bounds.  (`set_viewport` itself
stores the given viewport verbatim and can violate the bounds.) -/
theorem reachable_zoom_in_bounds {T : Type} {s : FlowState T} (h : Reachable s) :
    1/10 ≤ s.viewport.zoom ∧ s.viewport.zoom ≤ 4 := by
  induction h with
  | init => norm_num [FlowState.new, Viewport.default]
  | save_to_history h ih => rw [save_to_history_viewport]; exact ih
  | undo h ih => rw [undo_viewport]; exact ih
  | redo h ih => rw [redo_viewport]; exact ih
  | add_node node h ih => rw [add_node_viewport]; exact ih
  | remove_node id h ih => rw [remove_node_viewport]; exact ih
  | add_edge edge h ih => rw [add_edge_viewport]; exact ih
  | remove_edge id h ih => rw [remove_edge_viewport]; exact ih
  | delete_selected h ih => rw [delete_selected_viewport]; exact ih
  | update_node_position id p h heq ih => rw [update_node_position_viewport _ id p heq]; exact ih
  | move_selected_nodes dx dy h heq ih => rw [move_selected_nodes_viewport _ dx dy heq]; exact ih
  | bring_to_front id h ih => rw [bring_to_front_viewport]; exact ih
  | send_to_back id h ih => rw [send_to_back_viewport]; exact ih
  | select_node id multi h ih => rw [select_node_viewport]; exact ih
  | select_edge id multi h ih => rw [select_edge_viewport]; exact ih
  | select_nodes ids multi h ih => rw [select_nodes_viewport]; exact ih
  | select_in_rect rect multi h ih => rw [select_in_rect_viewport]; exact ih
  | select_all h ih => rw [select_all_viewport]; exact ih
  | clear_selection h ih => rw [clear_selection_viewport]; exact ih
  | copy_selected h ih => rw [copy_selected_viewport]; exact ih
  | cut_selected h ih => rw [cut_selected_viewport]; exact ih
  | paste mk_uuid offset h ih => rw [paste_viewport]; exact ih
  | pan dx dy h ih => rw [pan_viewport_zoom]; exact ih
  | zoom delta cx cy h ih => exact zoom_zoom_bounds _ delta cx cy
  | set_zoom z cx cy h ih => exact set_zoom_zoom_bounds _ z cx cy
  | zoom_in cx cy h ih => exact zoom_zoom_bounds _ _ cx cy
  | zoom_out cx cy h ih => exact zoom_zoom_bounds _ _ cx cy
  | fit_view padding cw ch h ih =>
    rcases fit_view_zoom_cases _ padding cw ch with hc | hc
    · rw [hc]; exact ih
    · exact hc
  | set_snap_grid g h ih => rw [set_snap_grid_viewport]; exact ih
  | set_snap_enabled b h ih => rw [set_snap_enabled_viewport]; exact ih
  | start_connection node_id hp p h ih => rw [start_connection_viewport]; exact ih
  | start_connection_from_handle node_id handle_id hp p h ih =>
    rw [start_connection_from_handle_viewport]; exact ih
  | update_connection p h ih => rw [update_connection_viewport]; exact ih
  | cancel_connection h ih => rw [cancel_connection_viewport]; exact ih
  | complete_connection_to_handle target th thid h ih =>
    rw [complete_connection_to_handle_viewport]; exact ih
  | complete_connection target th h ih => rw [complete_connection_viewport]; exact ih

/-- C4 (counterexample): `set_viewport` is one call of the public mutation API
away from the initial state, yet it stores an out-of-bounds zoom verbatim, so
the claimed invariant fails for states reached through `set_viewport`. -/
theorem c4_counterexample :
    ((FlowState.new : FlowState Unit).set_viewport ⟨0, 0, 100⟩).viewport.zoom = 100 ∧
    ¬(((FlowState.new : FlowState Unit).set_viewport ⟨0, 0, 100⟩).viewport.zoom ≤ 4) := by
  constructor
  · rfl
  · decide

/-- Witness for the amended C4 at a concrete reachable state. -/
theorem c4_witness :
    Reachable ((FlowState.new : FlowState Unit).pan 3 4) ∧
    1/10 ≤ ((FlowState.new : FlowState Unit).pan 3 4).viewport.zoom ∧
    ((FlowState.new : FlowState Unit).pan 3 4).viewport.zoom ≤ 4 :=
  ⟨Reachable.pan 3 4 Reachable.init,
   reachable_zoom_in_bounds (Reachable.pan 3 4 Reachable.init)⟩

/-- C5: for every flow state whose camera zoom is nonzero, every screen-space
anchor point and every requested zoom change, both `zoom` (additive delta) and
`set_zoom` (absolute target) keep the diagram-space point under the anchor
fixed: `screen_to_flow` at the anchor returns the same point before and after,
including when the new zoom is clamped to `[0.1, 4.0]`. -/
theorem c5_anchor_preserving_zoom {T : Type} (s : FlowState T) (ax ay delta z : ℚ)
    (h : s.viewport.zoom ≠ 0) :
    (s.zoom delta ax ay).viewport.screen_to_flow ax ay =
      s.viewport.screen_to_flow ax ay ∧
    (s.set_zoom z ax ay).viewport.screen_to_flow ax ay =
      s.viewport.screen_to_flow ax ay := by
  have h1 : clampVal (s.viewport.zoom + delta) (1/10) 4 ≠ 0 := by
    have hb := @clampVal_mem (s.viewport.zoom + delta) (1/10) 4 (by norm_num)
    intro h0
    rw [h0] at hb
    norm_num at hb
  have h2 : clampVal z (1/10) 4 ≠ 0 := by
    have hb := @clampVal_mem z (1/10) 4 (by norm_num)
    intro h0
    rw [h0] at hb
    norm_num at hb
  constructor
  · simp only [FlowState.zoom, Viewport.screen_to_flow, Position.mk.injEq]
    constructor <;> (field_simp; ring)
  · simp only [FlowState.set_zoom, Viewport.screen_to_flow, Position.mk.injEq]
    constructor <;> (field_simp; ring)

/-- Witness for C5 at a concrete camera. -/
theorem c5_witness :
    (FlowState.new : FlowState Unit).viewport.zoom ≠ 0 ∧
    ((FlowState.new : FlowState Unit).zoom 1 5 7).viewport.screen_to_flow 5 7 =
      (FlowState.new : FlowState Unit).viewport.screen_to_flow 5 7 :=
  ⟨by decide, (c5_anchor_preserving_zoom (FlowState.new : FlowState Unit) 5 7 1 2
    (by decide)).1⟩

/-- C6: for every state and every node id present in it, `remove_node` deletes
that node, deletes every edge whose source or target equals the id (zero edges
reference it afterwards), drops the id from the selected-node list, and leaves
all other nodes and all non-incident edges unchanged (the surviving lists are
exactly the filtered originals). -/
theorem c6_remove_node_cascade {T : Type} (s : FlowState T) (id : String)
    (_h : id ∈ s.nodes.map (fun n => n.id)) :
    (s.remove_node id).nodes = s.nodes.filter (fun n => decide (n.id ≠ id)) ∧
    (s.remove_node id).edges = s.edges.filter
      (fun e => decide (e.source ≠ id) && decide (e.target ≠ id)) ∧
    (s.remove_node id).selected_nodes =
      s.selected_nodes.filter (fun n => decide (n ≠ id)) ∧
    (∀ n ∈ (s.remove_node id).nodes, n.id ≠ id) ∧
    (∀ e ∈ (s.remove_node id).edges, e.source ≠ id ∧ e.target ≠ id) ∧
    id ∉ (s.remove_node id).selected_nodes := by
  refine ⟨rfl, rfl, rfl, ?_, ?_, ?_⟩
  · intro n hn
    have hp := List.mem_filter.mp hn
    simpa using hp.2
  · intro e he
    have hp := List.mem_filter.mp he
    have := hp.2
    simp only [Bool.and_eq_true, decide_eq_true_eq] at this
    exact this
  · intro hmem
    have hp := List.mem_filter.mp hmem
    simp at hp

/-- Witness for C6 at a concrete two-node graph with one incident edge. -/
theorem c6_witness :
    "A" ∈ (FlowState.with_nodes_and_edges
        [(Node.new "A" 0 0 : Node Unit), (Node.new "B" 9 9 : Node Unit)]
        [Edge.new "e1" "A" "B"]).nodes.map (fun n => n.id) ∧
    (∀ e ∈ ((FlowState.with_nodes_and_edges
        [(Node.new "A" 0 0 : Node Unit), (Node.new "B" 9 9 : Node Unit)]
        [Edge.new "e1" "A" "B"]).remove_node "A").edges,
      e.source ≠ "A" ∧ e.target ≠ "A") :=
  ⟨by decide,
   (c6_remove_node_cascade (FlowState.with_nodes_and_edges
      [(Node.new "A" 0 0 : Node Unit), (Node.new "B" 9 9 : Node Unit)]
      [Edge.new "e1" "A" "B"]) "A" (by decide)).2.2.2.2.1⟩

/-- C7: with a draft connection whose source is `A`, completing the connection
onto `A` itself (with or without a target handle id, any target handle side)
creates no edge, returns `none`, clears the draft connection, and leaves the
edge list unchanged. -/
theorem c7_self_loop_rejected {T : Type} (s : FlowState T) (c : Connection)
    (th : HandlePosition) (thid : Option String) (h : s.connection = some c) :
    (s.complete_connection_to_handle c.source th thid).1 = none ∧
    (s.complete_connection_to_handle c.source th thid).2.connection = none ∧
    (s.complete_connection_to_handle c.source th thid).2.edges = s.edges ∧
    (s.complete_connection c.source th).1 = none ∧
    (s.complete_connection c.source th).2.connection = none ∧
    (s.complete_connection c.source th).2.edges = s.edges := by
  have key : ∀ thid0 : Option String,
      s.complete_connection_to_handle c.source th thid0 =
        (none, { s with connection := none }) := by
    intro thid0
    simp only [FlowState.complete_connection_to_handle, h]
    rw [if_pos trivial]
  refine ⟨?_, ?_, ?_, ?_, ?_, ?_⟩ <;>
    simp only [FlowState.complete_connection, key]

/-- Witness for C7: a started connection completed onto its own source. -/
theorem c7_witness :
    ((FlowState.new : FlowState Unit).start_connection "A" HandlePosition.Bottom
      ⟨0, 0⟩).connection = some ⟨"A", HandlePosition.Bottom, none, ⟨0, 0⟩⟩ ∧
    (((FlowState.new : FlowState Unit).start_connection "A" HandlePosition.Bottom
      ⟨0, 0⟩).complete_connection_to_handle "A" HandlePosition.Top none).1 = none :=
  ⟨rfl,
   (c7_self_loop_rejected
      ((FlowState.new : FlowState Unit).start_connection "A" HandlePosition.Bottom ⟨0, 0⟩)
      ⟨"A", HandlePosition.Bottom, none, ⟨0, 0⟩⟩ HandlePosition.Top none rfl).1⟩

/-- C8: while a draft connection exists, `update_connection` changes only the
draft's tracked cursor position — nodes, edges, viewport, selection lists,
history stacks, clipboard, snap grid, node dimensions, default edge options,
and the draft's source node, source handle and handle id are all unchanged;
with no draft connection it changes nothing at all. -/
theorem c8_update_connection_frame {T : Type} (s : FlowState T) (p : Position) :
    (s.connection = none → s.update_connection p = s) ∧
    (∀ c : Connection, s.connection = some c →
      (s.update_connection p).nodes = s.nodes ∧
      (s.update_connection p).edges = s.edges ∧
      (s.update_connection p).viewport = s.viewport ∧
      (s.update_connection p).selected_nodes = s.selected_nodes ∧
      (s.update_connection p).selected_edges = s.selected_edges ∧
      (s.update_connection p).undo_stack = s.undo_stack ∧
      (s.update_connection p).redo_stack = s.redo_stack ∧
      (s.update_connection p).clipboard = s.clipboard ∧
      (s.update_connection p).snap_grid = s.snap_grid ∧
      (s.update_connection p).node_dimensions = s.node_dimensions ∧
      (s.update_connection p).default_edge_options = s.default_edge_options ∧
      (s.update_connection p).max_z_index = s.max_z_index ∧
      (s.update_connection p).connection_valid = s.connection_valid ∧
      (s.update_connection p).connection =
        some ⟨c.source, c.source_handle, c.source_handle_id, p⟩) := by
  constructor
  · intro h
    simp [FlowState.update_connection, h]
  · intro c h
    simp [FlowState.update_connection, h]

/-- Witness for C8 at a concrete drafting state. -/
theorem c8_witness :
    ((FlowState.new : FlowState Unit).start_connection "a" HandlePosition.Top
      ⟨0, 0⟩).connection = some ⟨"a", HandlePosition.Top, none, ⟨0, 0⟩⟩ ∧
    (((FlowState.new : FlowState Unit).start_connection "a" HandlePosition.Top
      ⟨0, 0⟩).update_connection ⟨9, 9⟩).connection =
      some ⟨"a", HandlePosition.Top, none, ⟨9, 9⟩⟩ :=
  ⟨rfl,
   ((c8_update_connection_frame
      ((FlowState.new : FlowState Unit).start_connection "a" HandlePosition.Top ⟨0, 0⟩)
      ⟨9, 9⟩).2 ⟨"a", HandlePosition.Top, none, ⟨0, 0⟩⟩
      rfl).2.2.2.2.2.2.2.2.2.2.2.2.2⟩

/-- C1 (counterexample): the two edges differ in the spec's dedup key (their
handle ids differ, and the claim says a present handle id takes precedence
over the side), so per the claim `add_edge` should append the second edge;
the code compares only the side fields, finds them equal, and no-ops, leaving
the edge count at one. -/
theorem c1_counterexample :
    specDedupKey c1Edge2 ≠ specDedupKey c1Edge1 ∧
    c1State.edges = [c1Edge1] ∧
    (c1State.add_edge c1Edge2).edges = [c1Edge1] := by decide

/-- C1 (amended): `add_edge` appends the edge unless an edge already exists
with identical `(source, target, source_handle side, target_handle side)` —
the handle-id fields are ignored by the dedup key — in which case it silently
no-ops; adding an edge identical in that side-based key never increases the
edge count. -/
theorem c1_add_edge_dedup {T : Type} (s : FlowState T) (e : Edge) :
    ((∃ e0 ∈ s.edges, e0.source = e.source ∧ e0.target = e.target ∧
        e0.source_handle = e.source_handle ∧ e0.target_handle = e.target_handle) →
      s.add_edge e = s ∧ (s.add_edge e).edges.length = s.edges.length) ∧
    (¬(∃ e0 ∈ s.edges, e0.source = e.source ∧ e0.target = e.target ∧
        e0.source_handle = e.source_handle ∧ e0.target_handle = e.target_handle) →
      (s.add_edge e).edges = s.edges ++ [e]) := by
  have hiff : (s.edges.any (fun e0 =>
      decide (e0.source = e.source) && decide (e0.target = e.target) &&
      decide (e0.source_handle = e.source_handle) &&
      decide (e0.target_handle = e.target_handle)) = true) ↔
      (∃ e0 ∈ s.edges, e0.source = e.source ∧ e0.target = e.target ∧
        e0.source_handle = e.source_handle ∧ e0.target_handle = e.target_handle) := by
    simp [List.any_eq_true, and_assoc]
  constructor
  · intro hex
    have heq : s.add_edge e = s := by
      simp only [FlowState.add_edge]
      rw [if_pos (hiff.mpr hex)]
    exact ⟨heq, by rw [heq]⟩
  · intro hnex
    simp only [FlowState.add_edge]
    rw [if_neg (fun hc => hnex (hiff.mp hc))]

/-- Witness for the amended C1: adding an edge whose side-based key matches an
existing edge (despite fresh handle ids) leaves the state unchanged. -/
theorem c1_witness :
    (∃ e0 ∈ c1State.edges, e0.source = c1Edge2.source ∧ e0.target = c1Edge2.target ∧
      e0.source_handle = c1Edge2.source_handle ∧
      e0.target_handle = c1Edge2.target_handle) ∧
    c1State.add_edge c1Edge2 = c1State :=
  ⟨by decide, ((c1_add_edge_dedup c1State c1Edge2).1 (by decide)).1⟩

/-- C2 (counterexample): the claim fails in two reachable situations.  With an
empty undo stack and nonempty redo stack, `undo` is a no-op but `redo` then
restores a different snapshot, so `undo(); redo()` does not return the
pre-undo nodes.  And when a node is selected, the `clear_selection` inside the
history operations strips its `selected` flag, so the nodes are not *exactly*
their pre-undo values. -/
theorem c2_counterexample :
    c2StateA.undo.2.redo.2.nodes ≠ c2StateA.nodes ∧
    (c2StateB.undo_stack ≠ [] ∧ c2StateB.undo.2.redo.2.nodes ≠ c2StateB.nodes) := by
  decide

/-- C2 (amended): whenever the undo stack is nonempty, `undo()` then `redo()`
succeeds (both return true) and restores the nodes and edges to their pre-undo
values up to clearing every `selected` flag (exactly the pre-undo values
whenever nothing was selected); and `redo()` on an empty redo stack is a no-op
returning false, leaving the whole state unchanged. -/
theorem c2_undo_redo_roundtrip {T : Type} (s : FlowState T) (h : s.undo_stack ≠ []) :
    s.undo.1 = true ∧
    s.undo.2.redo.1 = true ∧
    s.undo.2.redo.2.nodes = s.nodes.map (fun n => { n with selected := false }) ∧
    s.undo.2.redo.2.edges = s.edges.map (fun e => { e with selected := false }) ∧
    (∀ t : FlowState T, t.redo_stack = [] → t.redo = (false, t)) := by
  obtain ⟨snap, hsnap⟩ :=
    Option.isSome_iff_exists.mp (List.getLast?_isSome.mpr h)
  refine ⟨?_, ?_, ?_, ?_, ?_⟩
  · simp [FlowState.undo, hsnap]
  · simp [FlowState.undo, FlowState.redo, FlowState.clear_selection, hsnap,
      List.getLast?_concat]
  · simp [FlowState.undo, FlowState.redo, FlowState.clear_selection, hsnap,
      List.getLast?_concat]
  · simp [FlowState.undo, FlowState.redo, FlowState.clear_selection, hsnap,
      List.getLast?_concat]
  · intro t ht
    simp [FlowState.redo, ht]

/-- Witness for the amended C2 at a concrete state. -/
theorem c2_witness :
    c2WitState.undo_stack ≠ [] ∧
    c2WitState.undo.2.redo.2.nodes =
      c2WitState.nodes.map (fun n => { n with selected := false }) :=
  ⟨by decide, (c2_undo_redo_roundtrip c2WitState (by decide)).2.2.1⟩

/-- Rust `setFirst` on a list with no matching element is the identity. -/
theorem setFirst_no_match {α : Type} (p : α → Bool) (f : α → α) :
    ∀ l : List α, (∀ a ∈ l, p a = false) → setFirst p f l = l := by
  intro l
  induction l with
  | nil => intro _; rfl
  | cons a as ih =>
    intro h
    simp only [setFirst, h a (List.mem_cons_self a as), Bool.false_eq_true, if_false,
      List.cons.injEq, true_and]
    exact ih (fun x hx => h x (List.mem_cons_of_mem a hx))

/-- Rust `updateFirst` on a list with no matching element returns it unchanged. -/
theorem updateFirst_no_match {α : Type} (p : α → Bool) (f : α → Option α) :
    ∀ l : List α, (∀ a ∈ l, p a = false) → updateFirst p f l = some l := by
  intro l
  induction l with
  | nil => intro _; rfl
  | cons a as ih =>
    intro h
    simp only [updateFirst, h a (List.mem_cons_self a as), Bool.false_eq_true, if_false,
      ih (fun x hx => h x (List.mem_cons_of_mem a hx)), Option.map_some']

/-- Rust `updateFirst` propagates a panic of `f` on the first matching element. -/
theorem updateFirst_none {α : Type} (p : α → Bool) (f : α → Option α) :
    ∀ l : List α, ∀ a, l.find? p = some a → f a = none → updateFirst p f l = none := by
  intro l
  induction l with
  | nil => intro a ha; cases ha
  | cons x xs ih =>
    intro a ha hfa
    by_cases hx : p x = true
    · rw [List.find?_cons_of_pos _ hx] at ha
      cases ha
      simp only [updateFirst, hx, if_true, hfa, Option.map_none']
    · rw [List.find?_cons_of_neg _ hx] at ha
      simp only [updateFirst, hx, if_false, Bool.false_eq_true, ih a ha hfa,
        Option.map_none']

/-- Rust `updateFirst` succeeds when `f` succeeds on the first matching element. -/
theorem updateFirst_isSome {α : Type} (p : α → Bool) (f : α → Option α) :
    ∀ l : List α, (∀ a, l.find? p = some a → (f a).isSome) →
      (updateFirst p f l).isSome := by
  intro l
  induction l with
  | nil => intro _; rfl
  | cons x xs ih =>
    intro h
    by_cases hx : p x = true
    · have := h x (List.find?_cons_of_pos _ hx)
      obtain ⟨b, hb⟩ := Option.isSome_iff_exists.mp this
      simp [updateFirst, hx, hb]
    · have := ih (fun a ha => h a (by rw [List.find?_cons_of_neg _ hx]; exact ha))
      obtain ⟨bs, hbs⟩ := Option.isSome_iff_exists.mp this
      simp [updateFirst, hx, hbs]

/-- A successful `updateFirst` preserves any projection `g` that `f`
preserves. -/
theorem updateFirst_map_proj {α γ : Type} (p : α → Bool) (f : α → Option α)
    (g : α → γ) (hf : ∀ a a1, f a = some a1 → g a1 = g a) :
    ∀ l l1 : List α, updateFirst p f l = some l1 → l1.map g = l.map g := by
  intro l
  induction l with
  | nil => intro l1 h; cases h; rfl
  | cons x xs ih =>
    intro l1 h
    by_cases hx : p x = true
    · simp only [updateFirst, hx, if_true] at h
      rcases hb : f x with _ | b
      · rw [hb] at h; cases h
      · rw [hb, Option.map_some'] at h
        cases h
        simp [hf x b hb]
    · simp only [updateFirst, hx, Bool.false_eq_true, if_false] at h
      rcases hbs : updateFirst p f xs with _ | bs
      · rw [hbs] at h; cases h
      · rw [hbs, Option.map_some'] at h
        cases h
        simp [ih bs hbs]

/-- Two lists with equal images under `g` agree, through `g`, on `find?` for
any predicate that factors through `g`. -/
theorem find?_map_proj {α γ : Type} (g : α → γ) (q : γ → Bool) :
    ∀ l1 l2 : List α, l1.map g = l2.map g →
      (l1.find? (fun a => q (g a))).map g = (l2.find? (fun a => q (g a))).map g := by
  intro l1
  induction l1 with
  | nil =>
    intro l2 h
    cases l2 with
    | nil => rfl
    | cons y ys => cases h
  | cons x xs ih =>
    intro l2 h
    cases l2 with
    | nil => cases h
    | cons y ys =>
      simp only [List.map_cons, List.cons.injEq] at h
      by_cases hx : q (g x) = true
      · rw [@List.find?_cons_of_pos _ (fun a => q (g a)) x xs hx,
          @List.find?_cons_of_pos _ (fun a => q (g a)) y ys
            (show q (g y) = true by rw [← h.1]; exact hx)]
        simp [h.1]
      · rw [@List.find?_cons_of_neg _ (fun a => q (g a)) x xs hx,
          @List.find?_cons_of_neg _ (fun a => q (g a)) y ys
            (show ¬q (g y) = true by rw [← h.1]; exact hx)]
        exact ih ys h.2

/-- C10 (counterexample): selecting an id that names no node is NOT always an
append and not always a no-op-free operation — re-selecting an
already-selected ghost id with `multi = true` changes nothing at all, so the
claim's "in every case it appends" fails. -/
theorem c10_counterexample :
    ((FlowState.new : FlowState Unit).select_node "ghost" false).get_node "ghost" =
      none ∧
    ((FlowState.new : FlowState Unit).select_node "ghost" false).selected_nodes =
      ["ghost"] ∧
    ((FlowState.new : FlowState Unit).select_node "ghost" false).select_node "ghost"
      true = (FlowState.new : FlowState Unit).select_node "ghost" false := by
  decide

/-- C10 (amended): for an id naming no node, `select_node` skips the
selectable guard entirely: with `multi = false` it clears the selection and
the selection list becomes exactly `[id]`; with `multi = true` it adds the id
only when absent (a complete no-op when the id is already selected).  In
every case the id is a member of the selection afterwards while still naming
no node, so the selection id list can contain dangling ids. -/
theorem c10_select_missing_node {T : Type} (s : FlowState T) (id : String)
    (multi : Bool) (h : s.get_node id = none) :
    (multi = false → (s.select_node id false).selected_nodes = [id]) ∧
    (multi = true → (s.select_node id true).selected_nodes =
      (if id ∈ s.selected_nodes then s.selected_nodes
       else s.selected_nodes ++ [id])) ∧
    id ∈ (s.select_node id multi).selected_nodes ∧
    (s.select_node id multi).get_node id = none ∧
    (multi = true → id ∈ s.selected_nodes → s.select_node id true = s) := by
  have hall : ∀ n ∈ s.nodes, decide (n.id = id) = false := by
    intro n hn
    have := List.find?_eq_none.mp h n hn
    simpa using this
  have hall2 : ∀ n ∈ s.nodes.map (fun n => { n with selected := false }),
      decide (n.id = id) = false := by
    intro n hn
    obtain ⟨m, hm, hmn⟩ := List.mem_map.mp hn
    rw [← hmn]
    exact hall m hm
  have hcond : ¬((((s.get_node id).map (fun n => !n.selectable)).getD false) = true) := by
    rw [h]; simp
  have hdef : ∀ m : Bool, s.select_node id m =
      (let s1 := if m then s else s.clear_selection
       let s2 := if id ∈ s1.selected_nodes then s1
                 else { s1 with selected_nodes := s1.selected_nodes ++ [id] }
       { s2 with nodes := (setFirst (fun n => decide (n.id = id))
           (fun n => { n with selected := true }) s2.nodes) }) := by
    intro m
    unfold FlowState.select_node
    rw [if_neg hcond]
  have hsel_false : (s.select_node id false).selected_nodes = [id] := by
    rw [hdef false]
    simp [FlowState.clear_selection]
  have hsel_true : (s.select_node id true).selected_nodes =
      (if id ∈ s.selected_nodes then s.selected_nodes
       else s.selected_nodes ++ [id]) := by
    rw [hdef true]
    by_cases hc : id ∈ s.selected_nodes
    · simp [hc]
    · simp [hc]
  refine ⟨fun _ => hsel_false, fun _ => hsel_true, ?_, ?_, ?_⟩
  · cases multi with
    | false => rw [hsel_false]; exact List.mem_singleton.mpr rfl
    | true =>
      rw [hsel_true]
      by_cases hc : id ∈ s.selected_nodes
      · rw [if_pos hc]
        exact hc
      · rw [if_neg hc]
        exact List.mem_append_right _ (List.mem_singleton.mpr rfl)
  · have hnodes : (s.select_node id multi).nodes =
        (if multi then s.nodes
         else s.nodes.map (fun n => { n with selected := false })) := by
      rw [hdef multi]
      cases multi with
      | false =>
        simp only [Bool.false_eq_true, if_false]
        by_cases hc : id ∈ (s.clear_selection.selected_nodes)
        · simp only [FlowState.clear_selection] at hc ⊢
          rw [if_pos hc]
          exact setFirst_no_match _ _ _ hall2
        · simp only [FlowState.clear_selection] at hc ⊢
          rw [if_neg hc]
          exact setFirst_no_match _ _ _ hall2
      | true =>
        simp only [if_true]
        by_cases hc : id ∈ s.selected_nodes
        · rw [if_pos hc]
          exact setFirst_no_match _ _ _ hall
        · rw [if_neg hc]
          exact setFirst_no_match _ _ _ hall
    unfold FlowState.get_node
    rw [hnodes]
    cases multi with
    | false =>
      simp only [Bool.false_eq_true, if_false]
      exact List.find?_eq_none.mpr (fun n hn => by rw [hall2 n hn]; simp)
    | true =>
      simp only [if_true]
      exact List.find?_eq_none.mpr (fun n hn => by rw [hall n hn]; simp)
  · intro _ hc
    rw [hdef true]
    simp only [if_true]
    rw [if_pos hc, setFirst_no_match _ _ _ hall]

/-- Witness for the amended C10 at the empty state. -/
theorem c10_witness :
    (FlowState.new : FlowState Unit).get_node "ghost" = none ∧
    ((FlowState.new : FlowState Unit).select_node "ghost" false).selected_nodes =
      ["ghost"] :=
  ⟨by decide,
   (c10_select_missing_node (FlowState.new : FlowState Unit) "ghost" false
      (by decide)).1 rfl⟩

theorem sendBackFun_id {T : Type} (id : String) (n : Node T) :
    (sendBackFun id n).id = n.id := by
  unfold sendBackFun
  split
  · rfl
  · split <;> rfl

theorem sendBackFun_z_of_ne {T : Type} (id : String) (n : Node T) (h : n.id ≠ id) :
    (sendBackFun id n).z_index =
      if 0 < n.z_index then n.z_index + 1 else n.z_index := by
  unfold sendBackFun
  rw [if_neg h]
  split <;> rfl

/-- The node-list effect of `send_to_back` equals a single `map` of
`sendBackFun` when the target id is present and node ids are unique. -/
theorem send_to_back_list {T : Type} (id : String) :
    ∀ l : List (Node T), id ∈ l.map (fun n => n.id) → (l.map (fun n => n.id)).Nodup →
      setFirst (fun n => decide (n.id = id)) (fun n => { n with z_index := 0 })
        (l.map (fun n => if decide (n.id ≠ id) && decide (0 < n.z_index)
                         then { n with z_index := n.z_index + 1 } else n)) =
      l.map (sendBackFun id) := by
  intro l
  induction l with
  | nil => intro h _; simp at h
  | cons n tl ih =>
    intro hmem hnd
    simp only [List.map_cons] at hmem hnd ⊢
    have hnotmem := (List.nodup_cons.mp hnd).1
    have hndtl := (List.nodup_cons.mp hnd).2
    by_cases hn : n.id = id
    · have hgn : (if decide (n.id ≠ id) && decide (0 < n.z_index)
          then { n with z_index := n.z_index + 1 } else n) = n := by
        simp [hn]
      rw [hgn]
      have hp : (decide (n.id = id)) = true := by simp [hn]
      simp only [setFirst, hp, if_true]
      have hhead : sendBackFun id n = { n with z_index := 0 } := by
        unfold sendBackFun
        rw [if_pos hn]
      rw [hhead]
      congr 1
      refine List.map_congr_left ?_
      intro m hm
      have hm_ne : m.id ≠ id := by
        intro he
        rw [hn] at hnotmem
        exact hnotmem (he ▸ List.mem_map_of_mem (fun x => x.id) hm)
      unfold sendBackFun
      rw [if_neg hm_ne]
      by_cases hz : 0 < m.z_index
      · simp [hm_ne, hz]
      · simp [hm_ne, hz]
    · have hmem2 : id ∈ tl.map (fun n => n.id) := by
        rcases List.mem_cons.mp hmem with h1 | h1
        · exact absurd h1.symm hn
        · exact h1
      have hgn_id : (if decide (n.id ≠ id) && decide (0 < n.z_index)
          then { n with z_index := n.z_index + 1 } else n).id = n.id := by
        split <;> rfl
      have hp : (decide ((if decide (n.id ≠ id) && decide (0 < n.z_index)
          then { n with z_index := n.z_index + 1 } else n).id = id)) = false := by
        rw [hgn_id]
        simp [hn]
      simp only [setFirst, hp, Bool.false_eq_true, if_false]
      congr 1
      · unfold sendBackFun
        rw [if_neg hn]
        by_cases hz : 0 < n.z_index
        · simp [hn, hz]
        · simp [hn, hz]
      · exact ih hmem2 hndtl

/-- C3 (counterexample): `send_to_back "B"` must, per the claim, increment
every other node's z-index by one; node "A" has z-index 0 and the code leaves
it at 0 (the loop only increments nodes with positive z-index), while the
target "B" is set to 0 as claimed. -/
theorem c3_counterexample :
    (c3State.get_node "A").map (fun n => n.z_index) = some 0 ∧
    ((c3State.send_to_back "B").get_node "A").map (fun n => n.z_index) = some 0 ∧
    ((c3State.send_to_back "B").get_node "A").map (fun n => n.z_index) ≠ some 1 ∧
    ((c3State.send_to_back "B").get_node "B").map (fun n => n.z_index) = some 0 := by
  decide

/-- C3 (amended): for every state with unique node ids and every node id
present in it, `send_to_back` sets the target node's z-index to zero and
increments the z-index of every other node *whose z-index is positive* by
one, leaving non-positive z-indices unchanged; the relative z-order of all
untouched nodes is preserved. -/
theorem c3_send_to_back {T : Type} (s : FlowState T) (id : String)
    (hmem : id ∈ s.nodes.map (fun n => n.id))
    (hnd : (s.nodes.map (fun n => n.id)).Nodup) :
    (s.send_to_back id).nodes = s.nodes.map (sendBackFun id) ∧
    (∀ j k : String, j ≠ id → k ≠ id →
      ∀ nj nk nj1 nk1 : Node T,
        s.get_node j = some nj → s.get_node k = some nk →
        (s.send_to_back id).get_node j = some nj1 →
        (s.send_to_back id).get_node k = some nk1 →
        (nj1.z_index < nk1.z_index ↔ nj.z_index < nk.z_index)) := by
  have hchar : (s.send_to_back id).nodes = s.nodes.map (sendBackFun id) :=
    send_to_back_list id s.nodes hmem hnd
  refine ⟨hchar, ?_⟩
  intro j k hj hk nj nk nj1 nk1 hnj hnk hnj1 hnk1
  have htrans : ∀ i : String, (s.send_to_back id).get_node i =
      (s.get_node i).map (sendBackFun id) := by
    intro i
    unfold FlowState.get_node
    rw [hchar, List.find?_map]
    rw [show ((fun n : Node T => decide (n.id = i)) ∘ sendBackFun id) =
        (fun n : Node T => decide (n.id = i)) from
      funext (fun n => by simp [Function.comp, sendBackFun_id])]
  have hj_id : nj.id = j := by simpa using List.find?_some hnj
  have hk_id : nk.id = k := by simpa using List.find?_some hnk
  have hnj1_eq : nj1 = sendBackFun id nj := by
    have := htrans j
    rw [hnj1, hnj] at this
    exact Option.some.inj this
  have hnk1_eq : nk1 = sendBackFun id nk := by
    have := htrans k
    rw [hnk1, hnk] at this
    exact Option.some.inj this
  rw [hnj1_eq, hnk1_eq, sendBackFun_z_of_ne id nj (by rw [hj_id]; exact hj),
    sendBackFun_z_of_ne id nk (by rw [hk_id]; exact hk)]
  split_ifs <;> omega

/-- Witness for the amended C3 at a concrete state. -/
theorem c3_witness :
    "A" ∈ c3WitState.nodes.map (fun n => n.id) ∧
    (c3WitState.nodes.map (fun n => n.id)).Nodup ∧
    (c3WitState.send_to_back "A").nodes = c3WitState.nodes.map (sendBackFun "A") :=
  ⟨by decide, by decide,
   (c3_send_to_back c3WitState "A" (by decide) (by decide)).1⟩

/-- Rust `NodeExtent::clamp` succeeds exactly when the extent is at least as large
as the node on both axes. -/
theorem clamp_isSome_iff (e : NodeExtent) (p : Position) (w h : ℚ) :
    (e.clamp p w h).isSome ↔ (w ≤ e.max_x - e.min_x ∧ h ≤ e.max_y - e.min_y) := by
  unfold NodeExtent.clamp rustClamp
  by_cases h1 : e.min_x ≤ e.max_x - w
  · by_cases h2 : e.min_y ≤ e.max_y - h
    · rw [if_pos h1, if_pos h2]
      simp only [Option.isSome_some, true_iff]
      constructor <;> linarith
    · rw [if_pos h1, if_neg h2]
      constructor
      · intro hs
        simp at hs
      · intro hc
        exact absurd (show e.min_y ≤ e.max_y - h by
          obtain ⟨_, hb⟩ := hc; linarith) h2
  · rw [if_neg h1]
    constructor
    · intro hs
      rcases hy : (if e.min_y ≤ e.max_y - h then
          some (clampVal p.y e.min_y (e.max_y - h)) else none) with _ | q <;>
        simp [hy] at hs
    · intro ⟨ha, _⟩
      exact absurd (by linarith : e.min_x ≤ e.max_x - w) h1

theorem FlowState.applyPositionRules_isSome {T : Type} (sg : SnapGrid) (p : Position)
    (n : Node T) (h : extentOk n) : (FlowState.applyPositionRules sg p n).isSome := by
  unfold FlowState.applyPositionRules
  rcases he : n.extent with _ | e
  · rfl
  · dsimp only
    obtain ⟨q, hq⟩ := Option.isSome_iff_exists.mp ((clamp_isSome_iff e _ _ _).mpr (h e he))
    rw [hq]
    rfl

theorem FlowState.applyPositionRules_none {T : Type} (sg : SnapGrid) (p : Position)
    (n : Node T) (h : ¬ extentOk n) : FlowState.applyPositionRules sg p n = none := by
  unfold extentOk at h
  push_neg at h
  obtain ⟨e, he, hbad⟩ := h
  unfold FlowState.applyPositionRules
  rw [he]
  dsimp only
  have hn : e.clamp (if sg.enabled = true then sg.snap p else p)
      (n.width.getD 150) (n.height.getD 40) = none := by
    rcases hq : e.clamp (if sg.enabled = true then sg.snap p else p)
        (n.width.getD 150) (n.height.getD 40) with _ | q
    · rfl
    · have hab := (clamp_isSome_iff e _ _ _).mp (by rw [hq]; rfl)
      have := hbad hab.1
      linarith [hab.2]
  rw [hn]
  rfl

theorem FlowState.applyMoveRules_isSome {T : Type} (sg : SnapGrid) (dx dy : ℚ)
    (n : Node T) (h : n.draggable = true → extentOk n) :
    (FlowState.applyMoveRules sg dx dy n).isSome := by
  unfold FlowState.applyMoveRules
  by_cases hd : n.draggable = true
  · rw [if_pos hd]
    dsimp only
    rcases he : n.extent with _ | e
    · rfl
    · dsimp only
      obtain ⟨q, hq⟩ :=
        Option.isSome_iff_exists.mp ((clamp_isSome_iff e _ _ _).mpr (h hd e he))
      rw [hq]
      rfl
  · rw [if_neg hd]
    rfl

theorem FlowState.applyMoveRules_none {T : Type} (sg : SnapGrid) (dx dy : ℚ)
    (n : Node T) (hd : n.draggable = true) (h : ¬ extentOk n) :
    FlowState.applyMoveRules sg dx dy n = none := by
  unfold extentOk at h
  push_neg at h
  obtain ⟨e, he, hbad⟩ := h
  unfold FlowState.applyMoveRules
  rw [if_pos hd, he]
  dsimp only
  have hn : e.clamp (if sg.enabled = true then
        sg.snap ⟨n.position.x + dx, n.position.y + dy⟩
      else ⟨n.position.x + dx, n.position.y + dy⟩)
      (n.width.getD 150) (n.height.getD 40) = none := by
    rcases hq : e.clamp (if sg.enabled = true then
        sg.snap ⟨n.position.x + dx, n.position.y + dy⟩
      else ⟨n.position.x + dx, n.position.y + dy⟩)
        (n.width.getD 150) (n.height.getD 40) with _ | q
    · rfl
    · have hab := (clamp_isSome_iff e _ _ _).mp (by rw [hq]; rfl)
      have := hbad hab.1
      linarith [hab.2]
  rw [hn]
  rfl

theorem FlowState.applyMoveRules_sig {T : Type} (sg : SnapGrid) (dx dy : ℚ)
    (a a1 : Node T) (h : FlowState.applyMoveRules sg dx dy a = some a1) :
    nodeSig a1 = nodeSig a := by
  unfold FlowState.applyMoveRules at h
  by_cases hd : a.draggable = true
  · rw [if_pos hd] at h
    dsimp only at h
    rcases he : a.extent with _ | e
    · rw [he] at h
      dsimp only at h
      rw [← Option.some.inj h]
      simp [nodeSig, he]
    · rw [he] at h
      dsimp only at h
      rcases hq : e.clamp (if sg.enabled = true then
          sg.snap ⟨a.position.x + dx, a.position.y + dy⟩
        else ⟨a.position.x + dx, a.position.y + dy⟩)
          (a.width.getD 150) (a.height.getD 40) with _ | q
      · rw [hq] at h
        cases h
      · rw [hq, Option.map_some'] at h
        rw [← Option.some.inj h]
        simp [nodeSig, he]
  · rw [if_neg hd] at h
    rw [← Option.some.inj h]

/-- A successful `moveStep` preserves the signature of every node and the
selection list. -/
theorem moveStep_sig {T : Type} (sg : SnapGrid) (dx dy : ℚ) (id : String)
    {st st1 : FlowState T} (h : FlowState.moveStep sg dx dy id st = some st1) :
    st1.nodes.map nodeSig = st.nodes.map nodeSig := by
  unfold FlowState.moveStep at h
  rcases Option.map_eq_some'.mp h with ⟨ns, hns, h2⟩
  rw [← h2]
  exact updateFirst_map_proj _ _ nodeSig
    (fun a a1 ha => FlowState.applyMoveRules_sig sg dx dy a a1 ha) st.nodes ns hns

/-- Rust `moveStep` panics on an id whose (first) node is draggable with an extent
smaller than the node. -/
theorem moveStep_none_of_bad {T : Type} (sg : SnapGrid) (dx dy : ℚ) (j : String)
    {st : FlowState T} {n : Node T} (hfind : st.get_node j = some n)
    (hd : n.draggable = true) (hbad : ¬ extentOk n) :
    FlowState.moveStep sg dx dy j st = none := by
  unfold FlowState.moveStep
  rw [updateFirst_none _ _ st.nodes n hfind
    (FlowState.applyMoveRules_none sg dx dy n hd hbad)]
  rfl

/-- Rust `moveStep` succeeds when the id's node, if any, has a large-enough extent
whenever it is draggable. -/
theorem moveStep_isSome {T : Type} (sg : SnapGrid) (dx dy : ℚ) (j : String)
    {st : FlowState T}
    (hok : ∀ n : Node T, st.get_node j = some n → n.draggable = true → extentOk n) :
    (FlowState.moveStep sg dx dy j st).isSome := by
  unfold FlowState.moveStep
  have h1 := updateFirst_isSome (fun n : Node T => decide (n.id = j))
    (FlowState.applyMoveRules sg dx dy) st.nodes
    (fun a ha => FlowState.applyMoveRules_isSome sg dx dy a (hok a ha))
  obtain ⟨l1, hl1⟩ := Option.isSome_iff_exists.mp h1
  rw [hl1]
  rfl

/-- States with the same node signatures agree, through the signature, on
`get_node`. -/
theorem get_node_sig_transfer {T : Type} {st s : FlowState T}
    (hsig : st.nodes.map nodeSig = s.nodes.map nodeSig) (j : String) :
    (st.get_node j).map nodeSig = (s.get_node j).map nodeSig :=
  find?_map_proj nodeSig (fun t => decide (t.1 = j)) st.nodes s.nodes hsig

/-- Rust `extentOk` only reads fields recorded in the signature. -/
theorem extentOk_of_sig_eq {T : Type} {a b : Node T} (h : nodeSig a = nodeSig b) :
    extentOk a ↔ extentOk b := by
  unfold extentOk
  rw [show a.extent = b.extent from congrArg (fun t => t.2.2.1) h,
    show a.width = b.width from congrArg (fun t => t.2.2.2.1) h,
    show a.height = b.height from congrArg (fun t => t.2.2.2.2) h]

/-- The `move_selected_nodes` fold panics as soon as the selection contains an
id on which `moveStep` panics in every signature-equal state. -/
theorem move_fold_none {T : Type} (sg : SnapGrid) (dx dy : ℚ) (jbad : String)
    (sigs : List (String × Bool × Option NodeExtent × Option ℚ × Option ℚ))
    (hbad : ∀ st : FlowState T, st.nodes.map nodeSig = sigs →
      FlowState.moveStep sg dx dy jbad st = none) :
    ∀ l : List String, jbad ∈ l → ∀ st : FlowState T,
      st.nodes.map nodeSig = sigs →
      l.foldl (fun acc id0 => acc.bind (FlowState.moveStep sg dx dy id0))
        (some st) = none := by
  intro l
  induction l with
  | nil => intro hmem; exact absurd hmem (List.not_mem_nil jbad)
  | cons x xs ih =>
    intro hmem st hsig
    rw [List.foldl_cons]
    by_cases hx : x = jbad
    · subst hx
      rw [show (some st).bind (FlowState.moveStep sg dx dy x) = none by
        simp [hbad st hsig]]
      exact foldl_bind_none _ xs
    · rcases hms : FlowState.moveStep sg dx dy x st with _ | st1
      · rw [show (some st).bind (FlowState.moveStep sg dx dy x) = none by simp [hms]]
        exact foldl_bind_none _ xs
      · rw [show (some st).bind (FlowState.moveStep sg dx dy x) = some st1 by
          simp [hms]]
        have hmem2 : jbad ∈ xs := by
          rcases List.mem_cons.mp hmem with h1 | h1
          · exact absurd h1.symm hx
          · exact h1
        exact ih hmem2 st1 ((moveStep_sig sg dx dy x hms).trans hsig)

/-- The `move_selected_nodes` fold succeeds when `moveStep` succeeds for every
listed id in every signature-equal state. -/
theorem move_fold_some {T : Type} (sg : SnapGrid) (dx dy : ℚ)
    (sigs : List (String × Bool × Option NodeExtent × Option ℚ × Option ℚ)) :
    ∀ l : List String, ∀ st : FlowState T, st.nodes.map nodeSig = sigs →
      (∀ id0 ∈ l, ∀ st1 : FlowState T, st1.nodes.map nodeSig = sigs →
        (FlowState.moveStep sg dx dy id0 st1).isSome) →
      (l.foldl (fun acc id0 => acc.bind (FlowState.moveStep sg dx dy id0))
        (some st)).isSome := by
  intro l
  induction l with
  | nil => intro st _ _; rfl
  | cons x xs ih =>
    intro st hsig hok
    rw [List.foldl_cons]
    obtain ⟨st1, hst1⟩ := Option.isSome_iff_exists.mp
      (hok x (List.mem_cons_self x xs) st hsig)
    rw [show (some st).bind (FlowState.moveStep sg dx dy x) = some st1 by
      simp [hst1]]
    exact ih st1 ((moveStep_sig sg dx dy x hst1).trans hsig)
      (fun id0 hid0 => hok id0 (List.mem_cons_of_mem x hid0))

/-- C9: `update_node_position` (and likewise `move_selected_nodes`) is total
for every targeted node whose movement extent, when present, is at least as
large as the node (`max_x - min_x ≥ width` and `max_y - min_y ≥ height`);
when the targeted node's extent is smaller than the node on some axis, the
internal `f64::clamp` is invoked with a lower bound greater than its upper
bound and the operation panics (modelled as `none`) instead of returning a
clamped position — for `move_selected_nodes` this fires on every selected
draggable node. -/
theorem c9_extent_clamp_panic {T : Type} (s : FlowState T) (id : String)
    (p : Position) (dx dy : ℚ) :
    ((∀ n : Node T, s.get_node id = some n → extentOk n) →
      (s.update_node_position id p).isSome) ∧
    (∀ n : Node T, s.get_node id = some n → ¬ extentOk n →
      s.update_node_position id p = none) ∧
    ((∀ j ∈ s.selected_nodes, ∀ n : Node T, s.get_node j = some n →
        n.draggable = true → extentOk n) →
      (s.move_selected_nodes dx dy).isSome) ∧
    (∀ j ∈ s.selected_nodes, ∀ n : Node T, s.get_node j = some n →
      n.draggable = true → ¬ extentOk n →
      s.move_selected_nodes dx dy = none) := by
  refine ⟨?_, ?_, ?_, ?_⟩
  · intro hok
    unfold FlowState.update_node_position
    have h1 := updateFirst_isSome (fun n : Node T => decide (n.id = id))
      (FlowState.applyPositionRules s.snap_grid p) s.nodes
      (fun a ha => FlowState.applyPositionRules_isSome s.snap_grid p a (hok a ha))
    obtain ⟨l1, hl1⟩ := Option.isSome_iff_exists.mp h1
    rw [hl1]
    rfl
  · intro n hn hbad
    unfold FlowState.update_node_position
    rw [updateFirst_none _ _ s.nodes n hn
      (FlowState.applyPositionRules_none s.snap_grid p n hbad)]
    rfl
  · intro hok
    unfold FlowState.move_selected_nodes
    refine move_fold_some s.snap_grid dx dy (s.nodes.map nodeSig)
      s.selected_nodes s rfl ?_
    intro id0 hid0 st1 hsig1
    apply moveStep_isSome
    intro n1 hn1 hd1
    have ht := get_node_sig_transfer hsig1 id0
    rw [hn1] at ht
    rcases hs0 : s.get_node id0 with _ | n0
    · rw [hs0] at ht
      simp at ht
    · rw [hs0, Option.map_some', Option.map_some'] at ht
      have hsig_eq : nodeSig n1 = nodeSig n0 := Option.some.inj ht
      have hd0 : n0.draggable = true := by
        rw [show n0.draggable = (nodeSig n0).2.1 from rfl, ← hsig_eq]
        exact hd1
      exact (extentOk_of_sig_eq hsig_eq).mpr (hok id0 hid0 n0 hs0 hd0)
  · intro j hj n hn hd hbad
    unfold FlowState.move_selected_nodes
    refine move_fold_none s.snap_grid dx dy j (s.nodes.map nodeSig) ?_
      s.selected_nodes hj s rfl
    intro st hsig
    have ht := get_node_sig_transfer hsig j
    rw [hn] at ht
    rcases hst : st.get_node j with _ | n1
    · rw [hst] at ht
      simp at ht
    · rw [hst, Option.map_some', Option.map_some'] at ht
      have hsig_eq : nodeSig n1 = nodeSig n := Option.some.inj ht
      have hd1 : n1.draggable = true := by
        rw [show n1.draggable = (nodeSig n1).2.1 from rfl, hsig_eq]
        exact hd
      exact moveStep_none_of_bad s.snap_grid dx dy j hst hd1
        ((not_congr (extentOk_of_sig_eq hsig_eq)).mpr hbad)

/-- Witness for C9: the update succeeds on the large-extent node, panics on
the small-extent node, and `move_selected_nodes` panics with the small-extent
node selected. -/
theorem c9_witness :
    c9State.update_node_position "b" ⟨3, 3⟩ = none ∧
    (c9State.update_node_position "g" ⟨3, 3⟩).isSome ∧
    c9State.move_selected_nodes 1 1 = none := by
  have hbad : ¬ extentOk c9BadNode := by
    intro hok
    exact absurd (hok ⟨0, 0, 10, 10⟩ (by decide)).1
      (by norm_num [c9BadNode, Node.new])
  have hgood : ∀ n : Node Unit, c9State.get_node "g" = some n → extentOk n := by
    intro n hn
    rw [show c9State.get_node "g" = some c9GoodNode from by decide] at hn
    have heq : c9GoodNode = n := Option.some.inj hn
    subst heq
    intro e he
    rw [show c9GoodNode.extent = some ⟨0, 0, 200, 50⟩ from by decide] at he
    have he2 : (⟨0, 0, 200, 50⟩ : NodeExtent) = e := Option.some.inj he
    subst he2
    exact ⟨by norm_num [c9GoodNode, Node.new], by norm_num [c9GoodNode, Node.new]⟩
  refine ⟨?_, ?_, ?_⟩
  · exact (c9_extent_clamp_panic c9State "b" ⟨3, 3⟩ 1 1).2.1 c9BadNode
      (by decide) hbad
  · exact (c9_extent_clamp_panic c9State "g" ⟨3, 3⟩ 1 1).1 hgood
  · exact (c9_extent_clamp_panic c9State "b" ⟨3, 3⟩ 1 1).2.2.2 "b" (by decide)
      c9BadNode (by decide) (by decide) hbad

end DioxusFlow
